import Mathlib

/-!
# zaidibird: the simulation core of `game.js`

A shallow embedding of the game loop of `src/game.js`: the bird, the pipe
list, the parallax background, the three lifecycle states and the handlers
`flap`, `startGame`, `gameOver`, `resetGame`, `resize` and `loop`.

JavaScript numbers are modelled as exact rationals (`ℚ`); the constants of the
game (0.25, -4.5, 2.5) are dyadic, so positions and velocities stay exact.
The one product whose rounding decides an integer, `Math.random() * (...)`
under `Math.floor` in the spawn block, is rounded to a double (`toDouble`).
Canvas sizes, the frame counter and the scores are natural numbers.  Drawing
and DOM updates have no effect on the simulated state and are left out.
The two sources a tick reads from outside, `Math.random()` and
`Math.sin(Date.now() / 300)`, are inputs of the tick (`TickInput`).
-/

namespace ZaidiBird

/-! ## Constants (game.js lines 5-11) -/

def GRAVITY : ℚ := 1 / 4
def FLAP_FORCE : ℚ := -9 / 2
def PIPE_SPEED : ℚ := 5 / 2
def PIPE_SPAWN_RATE : ℕ := 120
def PIPE_GAP : ℚ := 170
def PIPE_WIDTH : ℚ := 60

/-- The value of `Math.PI`: the double nearest to pi, as an exact rational. -/
def MATH_PI : ℚ := 884279719003555 / 281474976710656

/-! ## Numbers: rounding a product to a double -/

/-- Number of halvings that take `n` below 2, with a recursion budget. -/
def ilog2Aux : ℕ → ℕ → ℕ
  | 0, _ => 0
  | fuel + 1, n => if 2 ≤ n then ilog2Aux fuel (n / 2) + 1 else 0

/-- The integer binary logarithm: `2 ^ ilog2 n ≤ n < 2 ^ (ilog2 n + 1)` for `n ≥ 1`. -/
def ilog2 (n : ℕ) : ℕ := ilog2Aux n n

/-- Round to the nearest integer, ties to the even one. -/
def roundHalfEven (x : ℚ) : ℤ :=
  if x - (Int.floor x : ℚ) < 1 / 2 then Int.floor x
  else if 1 / 2 < x - (Int.floor x : ℚ) then Int.floor x + 1
  else if Int.floor x % 2 = 0 then Int.floor x
  else Int.floor x + 1

/-- The binary exponent of a nonzero rational: `2 ^ e ≤ |x| < 2 ^ (e + 1)`. -/
def binaryExponent (x : ℚ) : ℤ :=
  let e0 : ℤ := (ilog2 x.num.natAbs : ℤ) - (ilog2 x.den : ℤ)
  if (2 : ℚ) ^ e0 ≤ |x| then e0 else e0 - 1

/-- The value of type Number nearest to the rational `x`: IEEE 754 binary64,
round to nearest, ties to even, with the subnormal range; overflow to
`Infinity` is not modelled (no value near `2 ^ 1024` occurs in the game). -/
def toDouble (x : ℚ) : ℚ :=
  if x = 0 then 0
  else
    let ulp : ℚ := (2 : ℚ) ^ (max (binaryExponent x) (-1022) - 52)
    (roundHalfEven (x / ulp) : ℚ) * ulp

/-! ## State (game.js lines 14-17, 50-57, 109-110, 207-209) -/

/-- The lifecycle state `currentState`. -/
inductive GameState where
  | START
  | PLAYING
  | GAMEOVER
  deriving DecidableEq, Repr

/-- The object `bird` (its data fields that the simulation reads or writes). -/
structure Bird where
  x : ℚ
  y : ℚ
  radius : ℚ
  velocity : ℚ
  rotation : ℚ
  deriving DecidableEq, Repr

/-- One element of `pipes.items`: `{ x, y, passed }`; `y` is the top of the gap. -/
structure Pipe where
  x : ℚ
  y : ℚ
  passed : Bool
  deriving DecidableEq, Repr

/-- The object `background`. -/
structure Background where
  x : ℚ
  speed : ℚ
  deriving DecidableEq, Repr

/-- All mutable globals of `game.js` that the simulation touches. -/
structure Game where
  currentState : GameState
  frames : ℕ
  score : ℕ
  highScore : ℕ
  bird : Bird
  items : List Pipe
  background : Background
  canvasWidth : ℕ
  canvasHeight : ℕ
  deriving DecidableEq, Repr

/-- What one call of `loop` reads from outside the program. -/
structure TickInput where
  /-- The value returned by `Math.random()` if it is called. -/
  random : ℚ
  /-- The value of `Math.sin(Date.now() / 300)` if it is evaluated. -/
  sinNow : ℚ
  deriving DecidableEq, Repr

/-- Ways in which the `for` loop of `pipes.update` could fail to produce a state. -/
inductive Fault where
  /-- The iteration budget was used up before the loop condition became false. -/
  | outOfFuel
  /-- The body read `this.items[i]` at an index outside the array. -/
  | badIndex
  deriving DecidableEq, Repr

/-- The state at script load: `resize()` has set the canvas size and
`highScore` has been read from storage. -/
def initial (width height best : ℕ) : Game :=
  { currentState := GameState.START
    frames := 0
    score := 0
    highScore := best
    bird := { x := 50, y := 150, radius := 15, velocity := 0, rotation := 0 }
    items := []
    background := { x := 0, speed := 1 }
    canvasWidth := width
    canvasHeight := height }

/-! ## Handlers -/

/-- The function `resize` (lines 42-45), with the parent size as argument. -/
def resize (g : Game) (width height : ℕ) : Game :=
  { g with canvasWidth := width, canvasHeight := height }

/-- The function `gameOver` (lines 269-282). -/
def gameOver (g : Game) : Game :=
  let g1 := { g with currentState := GameState.GAMEOVER }
  if g1.score > g1.highScore then { g1 with highScore := g1.score } else g1

/-- The method `bird.flap` (lines 82-85). -/
def bird_flap (g : Game) : Game :=
  { g with bird := { g.bird with velocity := FLAP_FORCE, rotation := -25 * MATH_PI / 180 } }

/-- The method `bird.update` (lines 87-106). -/
def bird_update (g : Game) : Game :=
  let velocity := g.bird.velocity + GRAVITY
  let y := g.bird.y + velocity
  let rotation :=
    if velocity < 0 then -25 * MATH_PI / 180
    else
      let r := g.bird.rotation + 1 / 25
      if r > 90 * MATH_PI / 180 then 90 * MATH_PI / 180 else r
  let g1 := { g with bird := { g.bird with y := y, velocity := velocity, rotation := rotation } }
  if g1.bird.y + g1.bird.radius ≥ (g1.canvasHeight : ℚ) then
    gameOver { g1 with bird := { g1.bird with y := (g1.canvasHeight : ℚ) - g1.bird.radius } }
  else g1

/-- The spawn block of `pipes.update` (lines 152-166); `random` is `Math.random()`. -/
def pipes_spawn (g : Game) (random : ℚ) : Game :=
  if g.frames % PIPE_SPAWN_RATE = 0 then
    let minPipeLen : ℚ := 50
    let maxPos : ℚ := (g.canvasHeight : ℚ) - minPipeLen - PIPE_GAP
    let minPos : ℚ := minPipeLen
    let y : ℚ := ((Int.floor (toDouble (random * (maxPos - minPos + 1))) : ℤ) : ℚ) + minPos
    { g with items := g.items ++ [{ x := (g.canvasWidth : ℚ), y := y, passed := false }] }
  else g

/-- The collision test of lines 182-193 on a pipe whose `x` is already advanced. -/
def hitsPipe (b : Bird) (p : Pipe) : Bool :=
  (decide (b.x + b.radius > p.x) && decide (b.x - b.radius < p.x + PIPE_WIDTH)) &&
    (decide (b.y - b.radius < p.y) || decide (b.y + b.radius > p.y + PIPE_GAP))

/-- The body of the `for` loop of `pipes.update` (lines 170-202) at index `i`,
where `p` is the element `this.items[i]`.  Returns the new globals and the
value of `i` when the body ends (before the `i++` of the loop header). -/
def pipes_body (g : Game) (i : ℤ) (p : Pipe) : Game × ℤ :=
  -- this.items[i].x -= PIPE_SPEED
  let p1 : Pipe := { p with x := p.x - PIPE_SPEED }
  -- score update
  let scored : Bool := decide (p1.x + PIPE_WIDTH < g.bird.x) && !p1.passed
  let p2 : Pipe := if scored then { p1 with passed := true } else p1
  let g1 : Game :=
    { g with score := if scored then g.score + 1 else g.score
             items := g.items.set i.toNat p2 }
  -- collision logic
  let g2 : Game := if hitsPipe g1.bird p2 then gameOver g1 else g1
  -- remove off-screen pipes: `shift()` drops the first element
  if p2.x + PIPE_WIDTH < 0 then ({ g2 with items := g2.items.tail }, i - 1)
  else (g2, i)

/-- The `for` loop of `pipes.update` (line 169): `fuel` bounds the number of
iterations; reading `this.items[i]` outside the array is a fault. -/
def pipes_for : ℕ → Game → ℤ → Except Fault Game
  | fuel, g, i =>
    if i < (g.items.length : ℤ) then
      match fuel with
      | 0 => Except.error Fault.outOfFuel
      | fuel + 1 =>
        if 0 ≤ i then
          match g.items.get? i.toNat with
          | some p =>
            let r := pipes_body g i p
            pipes_for fuel r.1 (r.2 + 1)
          | none => Except.error Fault.badIndex
        else Except.error Fault.badIndex
    else Except.ok g

/-- The method `pipes.update` (lines 150-204).  The loop is given as many
iterations as the array has elements when the loop starts. -/
def pipes_update (g : Game) (random : ℚ) : Except Fault Game :=
  let g1 := pipes_spawn g random
  pipes_for g1.items.length g1 0

/-- The method `background.update` (lines 237-239). -/
def background_update (g : Game) : Game :=
  { g with background := { g.background with x := g.background.x - g.background.speed } }

/-- The function `startGame` (lines 261-267). -/
def startGame (g : Game) : Game :=
  bird_flap { g with currentState := GameState.PLAYING }

/-- The function `flap` (lines 243-249). -/
def flap (g : Game) : Game :=
  if g.currentState = GameState.PLAYING then bird_flap g
  else if g.currentState = GameState.START then startGame g
  else g

/-- The function `resetGame` (lines 284-298). -/
def resetGame (g : Game) : Game :=
  { g with
    bird := { g.bird with y := 150, velocity := 0, rotation := 0 }
    items := []
    score := 0
    frames := 0
    currentState := GameState.START }

/-- The simulation part of `loop` (lines 301-312); drawing does not change the state. -/
def loop (g : Game) (inp : TickInput) : Except Fault Game :=
  let g1 := background_update g
  if g1.currentState = GameState.PLAYING then
    match pipes_update (bird_update g1) inp.random with
    | Except.ok g3 => Except.ok { g3 with frames := g3.frames + 1 }
    | Except.error e => Except.error e
  else if g1.currentState = GameState.START then
    Except.ok { g1 with bird := { g1.bird with y := 150 + inp.sinNow * 5 } }
  else Except.ok g1

/-! ## Events -/

/-- What can happen to the session between two renders. -/
inductive Event where
  /-- One call of `loop`. -/
  | tick (inp : TickInput)
  /-- Space key or canvas click: `flap`. -/
  | flap
  /-- Click on the start button: `startGame`. -/
  | startRequested
  /-- Click on the restart button: `resetGame`. -/
  | restartRequested
  /-- Window resize: `resize`. -/
  | resize (width height : ℕ)
  deriving DecidableEq, Repr

/-- The effect of one event. -/
def step (g : Game) : Event → Except Fault Game
  | Event.tick inp => loop g inp
  | Event.flap => Except.ok (flap g)
  | Event.startRequested => Except.ok (startGame g)
  | Event.restartRequested => Except.ok (resetGame g)
  | Event.resize w h => Except.ok (resize g w h)

/-- The effect of a sequence of events, oldest first. -/
def run (g : Game) : List Event → Except Fault Game
  | [] => Except.ok g
  | e :: es =>
    match step g e with
    | Except.ok g1 => run g1 es
    | Except.error err => Except.error err

deriving instance DecidableEq for Except

/-! ## Closed forms used in the proofs -/

/-- What the loop body does to one pipe: it is moved left and marked once passed. -/
def advance (bx : ℚ) (p : Pipe) : Pipe :=
  { x := p.x - PIPE_SPEED, y := p.y,
    passed := p.passed || decide (p.x - PIPE_SPEED + PIPE_WIDTH < bx) }

/-- The pipe flips its `passed` flag when visited. -/
def flips (bx : ℚ) (p : Pipe) : Bool :=
  decide (p.x - PIPE_SPEED + PIPE_WIDTH < bx) && !p.passed

/-- The removal test of line 199 on an advanced pipe. -/
def offscreen (p : Pipe) : Bool := decide (p.x + PIPE_WIDTH < 0)

/-- The effect of one loop iteration on the globals other than `items`. -/
def visit (g : Game) (p : Pipe) : Game :=
  let score := if flips g.bird.x p then g.score + 1 else g.score
  let hit := hitsPipe g.bird (advance g.bird.x p)
  { g with
    score := score
    currentState := if hit then GameState.GAMEOVER else g.currentState
    highScore := if hit then max g.highScore score else g.highScore }

/-- The effect of the whole loop on the globals other than `items`. -/
def visitAll (g : Game) (l : List Pipe) : Game := l.foldl visit g

/-- Replace the array `pipes.items`. -/
def setItems (g : Game) (l : List Pipe) : Game := { g with items := l }

/-- The globals after `pipes.update`, in closed form: every pipe of the list
after the spawn step is visited once, and as many pipes are dropped from the
front as visited pipes satisfy the removal test. -/
def afterPipes (g : Game) (random : ℚ) : Game :=
  let g1 := pipes_spawn g random
  setItems (visitAll g1 g1.items)
    ((g1.items.map (advance g.bird.x)).drop ((g1.items.map (advance g.bird.x)).countP offscreen))

/-- The globals after one call of `loop` in state `PLAYING`, in closed form. -/
def afterTick (g : Game) (random : ℚ) : Game :=
  let g3 := afterPipes (bird_update (background_update g)) random
  { g3 with frames := g3.frames + 1 }

/-- The pair created by the spawn block of `pipes.update`. -/
def newPipe (g : Game) (random : ℚ) : Pipe :=
  { x := (g.canvasWidth : ℚ)
    y := ((Int.floor (toDouble (random * ((g.canvasHeight : ℚ) - 50 - PIPE_GAP - 50 + 1))) : ℤ) : ℚ)
      + 50
    passed := false }

/-- The list is sorted by horizontal position and no pair is right of the canvas. -/
def Ordered (g : Game) : Prop :=
  g.items.Pairwise (fun p q => p.x ≤ q.x) ∧ ∀ p ∈ g.items, p.x ≤ (g.canvasWidth : ℚ)

/-- No `resize` event of the sequence makes the canvas narrower than it was;
the first argument is the width before the sequence. -/
def widthNeverShrinks : ℕ → List Event → Bool
  | _, [] => true
  | w, Event.resize w1 _ :: es => decide (w ≤ w1) && widthNeverShrinks w1 es
  | w, _ :: es => widthNeverShrinks w es

/-! ## Concrete states and traces -/

/-- A session on a 100 x 600 canvas: one flap, 44 ticks without input, then
the window is resized to 100 x 221. -/
def c2_trace : List Event :=
  [Event.flap] ++ List.replicate 44 (Event.tick ⟨1 / 32, 0⟩) ++ [Event.resize 100 221]

/-- The state reached by `c2_trace`: the bird is falling just above the new
floor, inside the gap of the only pair, which is about to be passed. -/
def c2_state : Game :=
  { currentState := GameState.PLAYING
    frames := 44
    score := 0
    highScore := 0
    bird := { x := 50, y := 399 / 2, radius := 15, velocity := 13 / 2,
              rotation := 163058712487313257 / 253327479039590400 }
    items := [{ x := -10, y := 60, passed := false }]
    background := { x := -44, speed := 1 }
    canvasWidth := 100
    canvasHeight := 221 }

/-- The state after one more tick from `c2_state`. -/
def c2_final : Game :=
  { currentState := GameState.GAMEOVER
    frames := 45
    score := 1
    highScore := 0
    bird := { x := 50, y := 206, radius := 15, velocity := 27 / 4,
              rotation := 173191811648896873 / 253327479039590400 }
    items := [{ x := -25 / 2, y := 60, passed := true }]
    background := { x := -45, speed := 1 }
    canvasWidth := 100
    canvasHeight := 221 }

/-- One flap followed by 35 ticks without input: the bird returns to the
height it had before the flap. -/
def flapCycle : List Event := Event.flap :: List.replicate 35 (Event.tick ⟨0, 0⟩)

/-- A session on a 1000 x 600 canvas that is resized to 100 x 600 between the
first spawn (tick 1) and the second spawn (tick 121); 184 ticks in all. -/
def c6_trace : List Event :=
  flapCycle ++ flapCycle ++ flapCycle ++ [Event.resize 100 600] ++ flapCycle ++ flapCycle ++
    (Event.flap :: List.replicate 9 (Event.tick ⟨0, 0⟩))

/-- The state reached by `c6_trace`: the pair spawned at width 1000 is at
`x = 540`, the pair spawned later at width 100 is at `x = -60`. -/
def c6_state : Game :=
  { currentState := GameState.PLAYING
    frames := 184
    score := 1
    highScore := 0
    bird := { x := 50, y := 483 / 4, radius := 15, velocity := -9 / 4,
              rotation := -4421398595017775 / 10133099161583616 }
    items := [{ x := 540, y := 50, passed := false }, { x := -60, y := 50, passed := true }]
    background := { x := -184, speed := 1 }
    canvasWidth := 100
    canvasHeight := 600 }

/-- A session on a 1000 x 600 canvas that is resized to 100 x 600 before the
second spawn; 121 ticks in all. -/
def c7_trace : List Event :=
  flapCycle ++ flapCycle ++ flapCycle ++ [Event.resize 100 600] ++
    (Event.flap :: List.replicate 16 (Event.tick ⟨0, 0⟩))

/-- The state after four flap cycles (140 ticks) on a 1000 x 600 canvas. -/
def c7_state : Game :=
  { currentState := GameState.PLAYING
    frames := 140
    score := 0
    highScore := 0
    bird := { x := 50, y := 150, radius := 15, velocity := 17 / 4,
              rotation := 71860820033060713 / 253327479039590400 }
    items := [{ x := 650, y := 50, passed := false }, { x := 950, y := 50, passed := false }]
    background := { x := -140, speed := 1 }
    canvasWidth := 1000
    canvasHeight := 600 }

/-- A state in play with score 7 and best score 3. -/
def c11_state : Game :=
  { initial 800 600 3 with currentState := GameState.PLAYING, score := 7 }

/-! ## Lemmas about rounding to a double -/

theorem ilog2Aux_spec : ∀ (fuel n : ℕ), 1 ≤ n → n ≤ fuel →
    2 ^ ilog2Aux fuel n ≤ n ∧ n < 2 ^ (ilog2Aux fuel n + 1) := by
  intro fuel
  induction fuel with
  | zero => intro n h1 h2; omega
  | succ fuel ih =>
    intro n h1 h2
    unfold ilog2Aux
    split_ifs with h
    · obtain ⟨ha, hb⟩ := ih (n / 2) (by omega) (by omega)
      constructor
      · rw [pow_succ]; omega
      · rw [pow_succ]; omega
    · constructor
      · simpa using h1
      · simp only [zero_add, pow_one]; omega

theorem ilog2_spec (n : ℕ) (h : 1 ≤ n) : 2 ^ ilog2 n ≤ n ∧ n < 2 ^ (ilog2 n + 1) :=
  ilog2Aux_spec n n h (le_refl n)

theorem abs_eq_natAbs_div_den (x : ℚ) : |x| = (x.num.natAbs : ℚ) / (x.den : ℚ) := by
  have hd : (0 : ℚ) < (x.den : ℚ) := by exact_mod_cast x.den_pos
  calc |x| = |(x.num : ℚ) / (x.den : ℚ)| := by rw [Rat.num_div_den]
    _ = |(x.num : ℚ)| / (x.den : ℚ) := by rw [abs_div, abs_of_pos hd]
    _ = (x.num.natAbs : ℚ) / (x.den : ℚ) := by
        rw [← Int.cast_abs, Int.abs_eq_natAbs, Int.cast_natCast]

theorem binaryExponent_spec (x : ℚ) (hx : x ≠ 0) :
    (2 : ℚ) ^ binaryExponent x ≤ |x| ∧ |x| < (2 : ℚ) ^ (binaryExponent x + 1) := by
  have hnum : 1 ≤ x.num.natAbs := Nat.one_le_iff_ne_zero.mpr (by simpa using hx)
  have hden : 1 ≤ x.den := x.den_pos
  obtain ⟨ha1, ha2⟩ := ilog2_spec _ hnum
  obtain ⟨hb1, hb2⟩ := ilog2_spec _ hden
  have ha1q : (2 : ℚ) ^ ilog2 x.num.natAbs ≤ (x.num.natAbs : ℚ) := by exact_mod_cast ha1
  have ha2q : (x.num.natAbs : ℚ) < (2 : ℚ) ^ (ilog2 x.num.natAbs + 1) := by exact_mod_cast ha2
  have hb1q : (2 : ℚ) ^ ilog2 x.den ≤ (x.den : ℚ) := by exact_mod_cast hb1
  have hb2q : (x.den : ℚ) < (2 : ℚ) ^ (ilog2 x.den + 1) := by exact_mod_cast hb2
  have hd : (0 : ℚ) < (x.den : ℚ) := by exact_mod_cast x.den_pos
  have hP : (0 : ℚ) < (2 : ℚ) ^ ilog2 x.num.natAbs := by positivity
  have hQ : (0 : ℚ) < (2 : ℚ) ^ ilog2 x.den := by positivity
  have h2 : (2 : ℚ) ≠ 0 := by norm_num
  have he0 : (2 : ℚ) ^ ((ilog2 x.num.natAbs : ℤ) - (ilog2 x.den : ℤ))
      = (2 : ℚ) ^ ilog2 x.num.natAbs / (2 : ℚ) ^ ilog2 x.den := by
    rw [zpow_sub₀ h2, zpow_natCast, zpow_natCast]
  have habs := abs_eq_natAbs_div_den x
  -- the two outer bounds that hold for every nonzero rational
  have hup : |x| < (2 : ℚ) ^ ((ilog2 x.num.natAbs : ℤ) - (ilog2 x.den : ℤ) + 1) := by
    rw [zpow_add_one₀ h2, he0, habs, div_lt_iff₀ hd]
    calc (x.num.natAbs : ℚ) < (2 : ℚ) ^ (ilog2 x.num.natAbs + 1) := ha2q
      _ = (2 : ℚ) ^ ilog2 x.num.natAbs / (2 : ℚ) ^ ilog2 x.den * 2 * (2 : ℚ) ^ ilog2 x.den := by
          rw [pow_succ]; field_simp
      _ ≤ (2 : ℚ) ^ ilog2 x.num.natAbs / (2 : ℚ) ^ ilog2 x.den * 2 * (x.den : ℚ) := by
          apply mul_le_mul_of_nonneg_left hb1q
          positivity
  have hlo : (2 : ℚ) ^ ((ilog2 x.num.natAbs : ℤ) - (ilog2 x.den : ℤ) - 1) ≤ |x| := by
    rw [zpow_sub_one₀ h2, he0, habs, le_div_iff₀ hd]
    calc (2 : ℚ) ^ ilog2 x.num.natAbs / (2 : ℚ) ^ ilog2 x.den * 2⁻¹ * (x.den : ℚ)
        ≤ (2 : ℚ) ^ ilog2 x.num.natAbs / (2 : ℚ) ^ ilog2 x.den * 2⁻¹
            * (2 : ℚ) ^ (ilog2 x.den + 1) := by
          apply mul_le_mul_of_nonneg_left (le_of_lt hb2q)
          positivity
      _ = (2 : ℚ) ^ ilog2 x.num.natAbs := by
          rw [pow_succ]; field_simp
      _ ≤ (x.num.natAbs : ℚ) := ha1q
  unfold binaryExponent
  simp only []
  split_ifs with h
  · exact ⟨h, hup⟩
  · refine ⟨hlo, ?_⟩
    rw [sub_add_cancel]
    exact not_le.mp h

theorem roundHalfEven_le (y : ℚ) : (roundHalfEven y : ℚ) ≤ y + 1 / 2 := by
  have h1 : (Int.floor y : ℚ) ≤ y := Int.floor_le y
  unfold roundHalfEven
  split_ifs with ha hb hc
  · linarith
  · push_cast; linarith
  · linarith
  · push_cast; linarith

theorem roundHalfEven_ge (y : ℚ) : y - 1 / 2 ≤ (roundHalfEven y : ℚ) := by
  have h1 : y < (Int.floor y : ℚ) + 1 := Int.lt_floor_add_one y
  unfold roundHalfEven
  split_ifs with ha hb hc
  · linarith
  · push_cast; linarith
  · linarith
  · push_cast; linarith

theorem roundHalfEven_nonneg (y : ℚ) (h : 0 ≤ y) : 0 ≤ roundHalfEven y := by
  have h1 : 0 ≤ Int.floor y := Int.floor_nonneg.mpr h
  unfold roundHalfEven
  split_ifs <;> omega

theorem toDouble_nonneg (x : ℚ) (h : 0 ≤ x) : 0 ≤ toDouble x := by
  unfold toDouble
  split_ifs with h0
  · exact le_refl _
  · simp only []
    have hu : (0 : ℚ) < (2 : ℚ) ^ (max (binaryExponent x) (-1022) - 52) := zpow_pos (by norm_num) _
    have : 0 ≤ roundHalfEven (x / (2 : ℚ) ^ (max (binaryExponent x) (-1022) - 52)) :=
      roundHalfEven_nonneg _ (div_nonneg h (le_of_lt hu))
    have : (0 : ℚ) ≤ (roundHalfEven (x / (2 : ℚ) ^ (max (binaryExponent x) (-1022) - 52)) : ℚ) := by
      exact_mod_cast this
    positivity

theorem toDouble_le_add_half_ulp (x : ℚ) (hx : x ≠ 0) :
    toDouble x ≤ x + (2 : ℚ) ^ (max (binaryExponent x) (-1022) - 52) / 2 := by
  have hu : (0 : ℚ) < (2 : ℚ) ^ (max (binaryExponent x) (-1022) - 52) := zpow_pos (by norm_num) _
  unfold toDouble
  rw [if_neg hx]
  simp only []
  have h := roundHalfEven_le (x / (2 : ℚ) ^ (max (binaryExponent x) (-1022) - 52))
  calc (roundHalfEven (x / (2 : ℚ) ^ (max (binaryExponent x) (-1022) - 52)) : ℚ)
        * (2 : ℚ) ^ (max (binaryExponent x) (-1022) - 52)
      ≤ (x / (2 : ℚ) ^ (max (binaryExponent x) (-1022) - 52) + 1 / 2)
        * (2 : ℚ) ^ (max (binaryExponent x) (-1022) - 52) :=
        mul_le_mul_of_nonneg_right h (le_of_lt hu)
    _ = x + (2 : ℚ) ^ (max (binaryExponent x) (-1022) - 52) / 2 := by
        field_simp
        ring

theorem toDouble_mul_lt (r n : ℚ) (hr0 : 0 ≤ r) (hr1 : r ≤ 1 - 1 / 2 ^ 53) (hn : 1 ≤ n) :
    toDouble (r * n) < n := by
  have hn0 : (0 : ℚ) < n := by linarith
  by_cases hx : r * n = 0
  · rw [hx]
    have : toDouble 0 = 0 := by unfold toDouble; simp
    rw [this]; exact hn0
  · have hxn : r * n ≤ n - n / 2 ^ 53 := by
      have := mul_le_mul_of_nonneg_right hr1 (le_of_lt hn0)
      calc r * n ≤ (1 - 1 / 2 ^ 53) * n := this
        _ = n - n / 2 ^ 53 := by ring
    have hxpos : 0 < r * n := lt_of_le_of_ne (mul_nonneg hr0 (le_of_lt hn0)) (Ne.symm hx)
    have hxlt : r * n < n := by
      have : (0 : ℚ) < n / 2 ^ 53 := by positivity
      linarith
    have h2 : (2 : ℚ) ≠ 0 := by norm_num
    have hspec := (binaryExponent_spec (r * n) hx).1
    rw [abs_of_pos hxpos] at hspec
    have hee : (2 : ℚ) ^ (max (binaryExponent (r * n)) (-1022)) < n := by
      rcases max_cases (binaryExponent (r * n)) (-1022) with ⟨h, _⟩ | ⟨h, _⟩
      · rw [h]; exact lt_of_le_of_lt hspec hxlt
      · rw [h]
        have : (2 : ℚ) ^ (-1022 : ℤ) < (2 : ℚ) ^ (0 : ℤ) :=
          (zpow_lt_zpow_iff_right₀ (by norm_num)).mpr (by norm_num)
        rw [zpow_zero] at this
        linarith
    have hu : (2 : ℚ) ^ (max (binaryExponent (r * n)) (-1022) - 52) / 2 < n / 2 ^ 53 := by
      rw [zpow_sub₀ h2]
      have h52 : (2 : ℚ) ^ (52 : ℤ) = 2 ^ 52 := by norm_cast
      rw [h52, div_div, div_lt_div_iff₀ (by positivity) (by positivity)]
      have : (2 : ℚ) ^ 52 * 2 = 2 ^ 53 := by norm_num
      rw [this]
      exact mul_lt_mul_of_pos_right hee (by positivity)
    have := toDouble_le_add_half_ulp (r * n) hx
    linarith

theorem double_lt_one (r : ℚ) (hd : toDouble r = r) (h1 : r < 1) : r ≤ 1 - 1 / 2 ^ 53 := by
  by_cases hhalf : r ≤ 1 / 2
  · have : (1 / 2 : ℚ) ≤ 1 - 1 / 2 ^ 53 := by norm_num
    linarith
  · have hr : 1 / 2 < r := not_le.mp hhalf
    have hpos : 0 < r := by linarith
    have hne : r ≠ 0 := ne_of_gt hpos
    obtain ⟨hs1, hs2⟩ := binaryExponent_spec r hne
    rw [abs_of_pos hpos] at hs1 hs2
    have he1 : binaryExponent r < 0 := by
      have : (2 : ℚ) ^ binaryExponent r < (2 : ℚ) ^ (0 : ℤ) := by
        rw [zpow_zero]; linarith
      exact (zpow_lt_zpow_iff_right₀ (by norm_num)).mp this
    have he2 : (-1 : ℤ) < binaryExponent r + 1 := by
      have : (2 : ℚ) ^ (-1 : ℤ) < (2 : ℚ) ^ (binaryExponent r + 1) := by
        have h : (2 : ℚ) ^ (-1 : ℤ) = 1 / 2 := by norm_num
        rw [h]; linarith
      exact (zpow_lt_zpow_iff_right₀ (by norm_num)).mp this
    have he : binaryExponent r = -1 := by omega
    unfold toDouble at hd
    rw [if_neg hne] at hd
    simp only [he] at hd
    have hu : (2 : ℚ) ^ (max (-1 : ℤ) (-1022) - 52) = 1 / 2 ^ 53 := by
      have : max (-1 : ℤ) (-1022) - 52 = -53 := by norm_num
      rw [this]
      have h53 : (2 : ℚ) ^ (-53 : ℤ) = ((2 : ℚ) ^ (53 : ℕ))⁻¹ := by
        rw [show (-53 : ℤ) = -((53 : ℕ) : ℤ) by norm_num, zpow_neg, zpow_natCast]
      rw [h53]; norm_num
    rw [hu] at hd
    set M : ℤ := roundHalfEven (r / (1 / 2 ^ 53)) with hM
    have hMlt : (M : ℚ) < 2 ^ 53 := by
      have : (M : ℚ) * (1 / 2 ^ 53) < 1 := by rw [hd]; exact h1
      have h53 : (0 : ℚ) < 2 ^ 53 := by positivity
      calc (M : ℚ) = (M : ℚ) * (1 / 2 ^ 53) * 2 ^ 53 := by field_simp
        _ < 1 * 2 ^ 53 := mul_lt_mul_of_pos_right this h53
        _ = 2 ^ 53 := one_mul _
    have hMi : M < 2 ^ 53 := by exact_mod_cast hMlt
    have hMi2 : M ≤ 2 ^ 53 - 1 := by omega
    have hMq : (M : ℚ) ≤ 2 ^ 53 - 1 := by exact_mod_cast hMi2
    rw [← hd]
    calc (M : ℚ) * (1 / 2 ^ 53) ≤ (2 ^ 53 - 1) * (1 / 2 ^ 53) :=
          mul_le_mul_of_nonneg_right hMq (by positivity)
      _ = 1 - 1 / 2 ^ 53 := by norm_num

/-! ## Lemmas about the loop of `pipes.update` -/

theorem gameOver_eq (g : Game) :
    gameOver g =
      { g with currentState := GameState.GAMEOVER, highScore := max g.highScore g.score } := by
  cases g
  simp only [gameOver, gt_iff_lt]
  split_ifs with h
  · simp [max_eq_right (le_of_lt h)]
  · simp [max_eq_left (not_lt.mp h)]

theorem visit_setItems (g : Game) (p : Pipe) (X : List Pipe) :
    visit (setItems g X) p = setItems (visit g p) X := rfl

theorem visitAll_cons (g : Game) (p : Pipe) (l : List Pipe) :
    visitAll g (p :: l) = visitAll (visit g p) l := rfl

theorem visitAll_setItems (l : List Pipe) (g : Game) (X : List Pipe) :
    visitAll (setItems g X) l = setItems (visitAll g l) X := by
  induction l generalizing g with
  | nil => rfl
  | cons p l ih => rw [visitAll_cons, visitAll_cons, visit_setItems, ih]

theorem setItems_setItems (g : Game) (X Y : List Pipe) :
    setItems (setItems g X) Y = setItems g Y := rfl

theorem setItems_items (g : Game) (X : List Pipe) : (setItems g X).items = X := rfl

theorem setItems_bird (g : Game) (X : List Pipe) : (setItems g X).bird = g.bird := rfl

theorem setItems_score (g : Game) (X : List Pipe) : (setItems g X).score = g.score := rfl

theorem setItems_self (g : Game) : setItems g g.items = g := rfl

theorem visit_bird (g : Game) (p : Pipe) : (visit g p).bird = g.bird := rfl

theorem visitAll_bird (l : List Pipe) (g : Game) : (visitAll g l).bird = g.bird := by
  induction l generalizing g with
  | nil => rfl
  | cons p l ih => rw [visitAll_cons, ih, visit_bird]

theorem pipes_body_eq (g : Game) (i : ℤ) (p : Pipe) :
    pipes_body g i p =
      (setItems (visit g p)
          (if offscreen (advance g.bird.x p) then (g.items.set i.toNat (advance g.bird.x p)).tail
          else g.items.set i.toNat (advance g.bird.x p)),
       if offscreen (advance g.bird.x p) then i - 1 else i) := by
  obtain ⟨x, y, passed⟩ := p
  by_cases h1 : x - PIPE_SPEED + PIPE_WIDTH < g.bird.x <;>
  by_cases h3 : x - PIPE_SPEED + PIPE_WIDTH < 0 <;>
  cases passed <;>
  cases hh : hitsPipe g.bird { x := x - PIPE_SPEED, y := y, passed := true } <;>
  simp only [hitsPipe] at hh <;>
  simp [pipes_body, visit, advance, flips, offscreen, gameOver_eq, hitsPipe, h1, h3, hh, setItems]

theorem drop_succ_append_of_ne_nil {α : Type} (k : ℕ) (L R : List α) (h : L ≠ []) :
    (L ++ R).drop (k + 1) = (L.tail ++ R).drop k := by
  cases L with
  | nil => exact absurd rfl h
  | cons a L => rfl

theorem pipes_for_eq (todo : List Pipe) : ∀ (done : List Pipe) (g : Game) (fuel : ℕ),
    g.items = done ++ todo → todo.length ≤ fuel →
    pipes_for fuel g (done.length : ℤ) = Except.ok
      (setItems (visitAll g todo)
        ((done ++ todo.map (advance g.bird.x)).drop
          ((todo.map (advance g.bird.x)).countP offscreen))) := by
  induction todo with
  | nil =>
    intro done g fuel hitems _
    unfold pipes_for
    have : ¬ ((done.length : ℤ) < (g.items.length : ℤ)) := by simp [hitems]
    rw [if_neg this]
    simp only [visitAll, List.foldl_nil, List.map_nil, List.append_nil, List.countP_nil,
      List.drop_zero, ← hitems, setItems_self]
  | cons p rest ih =>
    intro done g fuel hitems hfuel
    obtain ⟨fuel, rfl⟩ : ∃ f, fuel = f + 1 := ⟨fuel - 1, by simp at hfuel; omega⟩
    have hlt : ((done.length : ℤ) < (g.items.length : ℤ)) := by simp [hitems]
    have hget : g.items.get? (done.length : ℤ).toNat = some p := by
      rw [hitems, Int.toNat_ofNat, List.get?_eq_getElem?,
        List.getElem?_append_right (le_refl _)]
      simp
    unfold pipes_for
    rw [if_pos hlt]
    simp only [Int.natCast_nonneg, if_true, hget, pipes_body_eq]
    have hset : g.items.set (done.length : ℤ).toNat (advance g.bird.x p)
        = (done ++ [advance g.bird.x p]) ++ rest := by simp [hitems]
    rw [hset]
    by_cases hoff : offscreen (advance g.bird.x p) = true
    · simp only [hoff, if_true, sub_add_cancel]
      have hlen : ((done ++ [advance g.bird.x p]).tail).length = done.length := by simp
      have htail : ((done ++ [advance g.bird.x p]) ++ rest).tail
          = (done ++ [advance g.bird.x p]).tail ++ rest := by
        cases done <;> rfl
      rw [htail, ← hlen]
      rw [ih _ _ fuel rfl (by simpa using hfuel)]
      rw [visitAll_setItems, setItems_setItems, setItems_bird, visit_bird, visitAll_cons,
        List.map_cons, List.countP_cons_of_pos _ _ hoff,
        ← drop_succ_append_of_ne_nil _ _ _ (by simp)]
      simp
    · simp only [hoff, Bool.false_eq_true, if_false]
      have hlen : (done ++ [advance g.bird.x p]).length = done.length + 1 := by simp
      have : ((done.length : ℤ) + 1) = (((done ++ [advance g.bird.x p]).length : ℕ) : ℤ) := by
        rw [hlen]; push_cast; rfl
      rw [this, ih _ _ fuel rfl (by simpa using hfuel)]
      rw [visitAll_setItems, setItems_setItems, setItems_bird, visit_bird, visitAll_cons,
        List.map_cons, List.countP_cons_of_neg _ _ hoff]
      simp

theorem pipes_spawn_bird (g : Game) (random : ℚ) : (pipes_spawn g random).bird = g.bird := by
  unfold pipes_spawn; split_ifs <;> rfl

theorem pipes_spawn_score (g : Game) (random : ℚ) :
    (pipes_spawn g random).score = g.score := by
  unfold pipes_spawn; split_ifs <;> rfl

theorem pipes_update_eq (g : Game) (random : ℚ) :
    pipes_update g random = Except.ok
      (setItems (visitAll (pipes_spawn g random) (pipes_spawn g random).items)
        (((pipes_spawn g random).items.map (advance g.bird.x)).drop
          (((pipes_spawn g random).items.map (advance g.bird.x)).countP offscreen))) := by
  have h := pipes_for_eq (pipes_spawn g random).items [] (pipes_spawn g random)
    (pipes_spawn g random).items.length (by simp) (le_refl _)
  simp only [List.length_nil, Nat.cast_zero, List.nil_append, pipes_spawn_bird] at h
  exact h

theorem visit_score (g : Game) (p : Pipe) :
    (visit g p).score = g.score + if flips g.bird.x p then 1 else 0 := by
  simp only [visit]; split_ifs <;> rfl

theorem visitAll_score (l : List Pipe) (g : Game) :
    (visitAll g l).score = g.score + l.countP (flips g.bird.x) := by
  induction l generalizing g with
  | nil => rfl
  | cons p l ih =>
    rw [visitAll_cons, ih, visit_score, visit_bird, List.countP_cons]
    omega

theorem pipes_update_eq_afterPipes (g : Game) (random : ℚ) :
    pipes_update g random = Except.ok (afterPipes g random) := pipes_update_eq g random

theorem loop_playing (g : Game) (inp : TickInput) (h : g.currentState = GameState.PLAYING) :
    loop g inp = Except.ok (afterTick g inp.random) := by
  have h1 : (background_update g).currentState = GameState.PLAYING := h
  simp only [loop, h1, if_true, pipes_update_eq_afterPipes, afterTick]

theorem loop_start (g : Game) (inp : TickInput) (h : g.currentState = GameState.START) :
    loop g inp = Except.ok
      { background_update g with bird := { g.bird with y := 150 + inp.sinNow * 5 } } := by
  have h1 : (background_update g).currentState = GameState.START := h
  simp only [loop, h1, if_true]
  rfl

theorem loop_gameover (g : Game) (inp : TickInput) (h : g.currentState = GameState.GAMEOVER) :
    loop g inp = Except.ok (background_update g) := by
  have h1 : (background_update g).currentState = GameState.GAMEOVER := h
  simp only [loop, h1]
  rfl

theorem visitAll_currentState (l : List Pipe) (g : Game) :
    (visitAll g l).currentState =
      if l.any (fun p => hitsPipe g.bird (advance g.bird.x p)) then GameState.GAMEOVER
      else g.currentState := by
  induction l generalizing g with
  | nil => rfl
  | cons p l ih =>
    rw [visitAll_cons, ih, visit_bird, List.any_cons]
    by_cases hp : hitsPipe g.bird (advance g.bird.x p) = true
    · simp [hp, visit]
    · simp [hp, visit]

theorem afterPipes_currentState (g : Game) (random : ℚ) :
    (afterPipes g random).currentState =
      if (pipes_spawn g random).items.any (fun p => hitsPipe g.bird (advance g.bird.x p))
      then GameState.GAMEOVER else g.currentState := by
  have hs : (pipes_spawn g random).currentState = g.currentState := by
    unfold pipes_spawn; split_ifs <;> rfl
  simp only [afterPipes]
  show (visitAll _ _).currentState = _
  rw [visitAll_currentState, pipes_spawn_bird, hs]

theorem bird_update_currentState (g : Game) :
    (bird_update g).currentState =
      if g.bird.y + (g.bird.velocity + GRAVITY) + g.bird.radius ≥ (g.canvasHeight : ℚ)
      then GameState.GAMEOVER else g.currentState := by
  simp only [bird_update, gameOver_eq]
  split_ifs <;> rfl

theorem afterTick_currentState_cases (g : Game) (random : ℚ) :
    (afterTick g random).currentState = GameState.GAMEOVER ∨
      (afterTick g random).currentState = g.currentState := by
  show (afterPipes _ _).currentState = _ ∨ (afterPipes _ _).currentState = _
  rw [afterPipes_currentState, bird_update_currentState]
  split_ifs
  · exact Or.inl rfl
  · exact Or.inl rfl
  · exact Or.inr rfl

/-! ## Lemmas about whole ticks and event sequences -/

theorem pipes_spawn_items (g : Game) (random : ℚ) :
    (pipes_spawn g random).items =
      g.items ++ (if g.frames % PIPE_SPAWN_RATE = 0 then [newPipe g random] else []) := by
  unfold pipes_spawn newPipe
  split_ifs <;> simp

theorem not_offscreen_newPipe (g : Game) (random bx : ℚ) :
    offscreen (advance bx (newPipe g random)) = false := by
  have h : (0 : ℚ) ≤ (g.canvasWidth : ℚ) := Nat.cast_nonneg _
  simp only [offscreen, advance, newPipe, PIPE_SPEED, PIPE_WIDTH, decide_eq_false_iff_not, not_lt]
  linarith

theorem afterPipes_items (g : Game) (random : ℚ) :
    (afterPipes g random).items =
      (g.items.map (advance g.bird.x)).drop ((g.items.map (advance g.bird.x)).countP offscreen) ++
        (if g.frames % PIPE_SPAWN_RATE = 0 then [advance g.bird.x (newPipe g random)] else []) := by
  show List.drop _ _ = _
  rw [pipes_spawn_items]
  split_ifs with h
  · rw [List.map_append, List.countP_append, List.map_singleton, List.countP_singleton,
      not_offscreen_newPipe]
    simp only [Bool.false_eq_true, if_false, add_zero]
    rw [List.drop_append_of_le_length (List.countP_le_length _)]
  · simp

theorem bird_update_items (g : Game) : (bird_update g).items = g.items := by
  simp only [bird_update, gameOver_eq]; split_ifs <;> rfl

theorem bird_update_frames (g : Game) : (bird_update g).frames = g.frames := by
  simp only [bird_update, gameOver_eq]; split_ifs <;> rfl

theorem bird_update_score (g : Game) : (bird_update g).score = g.score := by
  simp only [bird_update, gameOver_eq]; split_ifs <;> rfl

theorem bird_update_canvasWidth (g : Game) : (bird_update g).canvasWidth = g.canvasWidth := by
  simp only [bird_update, gameOver_eq]; split_ifs <;> rfl

theorem bird_update_canvasHeight (g : Game) : (bird_update g).canvasHeight = g.canvasHeight := by
  simp only [bird_update, gameOver_eq]; split_ifs <;> rfl

theorem bird_update_bird_x (g : Game) : (bird_update g).bird.x = g.bird.x := by
  simp only [bird_update, gameOver_eq]; split_ifs <;> rfl

theorem newPipe_congr (g g1 : Game) (random : ℚ) (hw : g1.canvasWidth = g.canvasWidth)
    (hh : g1.canvasHeight = g.canvasHeight) : newPipe g1 random = newPipe g random := by
  simp only [newPipe, hw, hh]

theorem afterTick_items (g : Game) (random : ℚ) :
    (afterTick g random).items =
      (g.items.map (advance g.bird.x)).drop ((g.items.map (advance g.bird.x)).countP offscreen) ++
        (if g.frames % PIPE_SPAWN_RATE = 0 then [advance g.bird.x (newPipe g random)] else []) := by
  show (afterPipes _ _).items = _
  rw [afterPipes_items, bird_update_items, bird_update_frames, bird_update_bird_x,
    newPipe_congr (background_update g) (bird_update (background_update g)) random
      (bird_update_canvasWidth _) (bird_update_canvasHeight _)]
  rfl

theorem visitAll_canvasWidth (l : List Pipe) (g : Game) :
    (visitAll g l).canvasWidth = g.canvasWidth := by
  induction l generalizing g with
  | nil => rfl
  | cons p l ih => rw [visitAll_cons, ih]; rfl

theorem afterTick_canvasWidth (g : Game) (random : ℚ) :
    (afterTick g random).canvasWidth = g.canvasWidth := by
  show (visitAll _ _).canvasWidth = _
  rw [visitAll_canvasWidth]
  have : (pipes_spawn (bird_update (background_update g)) random).canvasWidth
      = (bird_update (background_update g)).canvasWidth := by
    unfold pipes_spawn; split_ifs <;> rfl
  rw [this, bird_update_canvasWidth]
  rfl

theorem afterTick_ordered (g : Game) (random : ℚ) (h : Ordered g) :
    Ordered (afterTick g random) := by
  obtain ⟨hs, hb⟩ := h
  have hmap : ∀ l : List Pipe, l.Pairwise (fun p q => p.x ≤ q.x) →
      (l.map (advance g.bird.x)).Pairwise (fun p q => p.x ≤ q.x) := by
    intro l hl
    rw [List.pairwise_map]
    exact hl.imp (fun {a b} hab => by simp only [advance]; linarith)
  have hsp : (g.items ++ (if g.frames % PIPE_SPAWN_RATE = 0 then [newPipe g random] else [])).Pairwise
      (fun p q => p.x ≤ q.x) := by
    rw [List.pairwise_append]
    refine ⟨hs, ?_, ?_⟩
    · split_ifs <;> simp
    · intro a ha b hb1
      split_ifs at hb1
      · simp only [List.mem_singleton] at hb1
        subst hb1
        exact hb a ha
      · simp at hb1
  have hall : (afterTick g random).items.Sublist
      ((g.items ++ (if g.frames % PIPE_SPAWN_RATE = 0 then [newPipe g random] else [])).map
        (advance g.bird.x)) := by
    rw [afterTick_items, List.map_append]
    refine List.Sublist.append (List.drop_sublist _ _) ?_
    split_ifs <;> simp
  refine ⟨(hmap _ hsp).sublist hall, ?_⟩
  intro p hp
  rw [afterTick_canvasWidth]
  have hp1 := hall.subset hp
  rw [List.mem_map] at hp1
  obtain ⟨q, hq, rfl⟩ := hp1
  have hqx : q.x ≤ (g.canvasWidth : ℚ) := by
    rw [List.mem_append] at hq
    rcases hq with hq | hq
    · exact hb q hq
    · split_ifs at hq
      · simp only [List.mem_singleton] at hq
        subst hq
        exact le_refl _
      · simp at hq
  simp only [advance, PIPE_SPEED]
  linarith


theorem Ordered_congr (g g1 : Game) (hi : g1.items = g.items)
    (hw : g1.canvasWidth = g.canvasWidth) (h : Ordered g) : Ordered g1 := by
  unfold Ordered at *
  rw [hi, hw]
  exact h

theorem run_cons (g : Game) (e : Event) (es : List Event) (g2 : Game)
    (h : run g (e :: es) = Except.ok g2) :
    ∃ g1, step g e = Except.ok g1 ∧ run g1 es = Except.ok g2 := by
  simp only [run] at h
  cases hs : step g e with
  | error err => rw [hs] at h; cases h
  | ok g1 => rw [hs] at h; exact ⟨g1, rfl, h⟩

theorem run_invariant (P : Game → Prop)
    (hstep : ∀ g e g1, P g → step g e = Except.ok g1 → P g1) :
    ∀ (evs : List Event) (g g1 : Game), P g → run g evs = Except.ok g1 → P g1 := by
  intro evs
  induction evs with
  | nil =>
    intro g g1 hP h
    simp only [run] at h
    cases h
    exact hP
  | cons e es ih =>
    intro g g2 hP h
    obtain ⟨g1, h1, h2⟩ := run_cons g e es g2 h
    exact ih g1 g2 (hstep g e g1 hP h1) h2

theorem loop_eq_cases (g : Game) (inp : TickInput) :
    (g.currentState = GameState.PLAYING ∧ loop g inp = Except.ok (afterTick g inp.random)) ∨
      (g.currentState ≠ GameState.PLAYING ∧ ∃ g1, loop g inp = Except.ok g1 ∧
        g1.currentState = g.currentState ∧ g1.items = g.items ∧ g1.score = g.score ∧
        g1.frames = g.frames ∧ g1.highScore = g.highScore ∧
        g1.canvasWidth = g.canvasWidth ∧ g1.canvasHeight = g.canvasHeight) := by
  cases hs : g.currentState with
  | START =>
    exact Or.inr ⟨by simp, _, loop_start g inp hs, hs, rfl, rfl, rfl, rfl, rfl, rfl⟩
  | PLAYING => exact Or.inl ⟨rfl, loop_playing g inp hs⟩
  | GAMEOVER =>
    exact Or.inr ⟨by simp, _, loop_gameover g inp hs, hs, rfl, rfl, rfl, rfl, rfl, rfl⟩

theorem step_ordered (g g1 : Game) (e : Event) (h : Ordered g)
    (hstep : step g e = Except.ok g1) (hw : g.canvasWidth ≤ g1.canvasWidth) : Ordered g1 := by
  cases e with
  | tick inp =>
    simp only [step] at hstep
    rcases loop_eq_cases g inp with ⟨_, hl⟩ | ⟨_, g2, hl, _, hi, _, _, _, hcw, _⟩
    · rw [hl] at hstep; cases hstep
      exact afterTick_ordered g inp.random h
    · rw [hl] at hstep; cases hstep
      exact Ordered_congr g _ hi hcw h
  | flap =>
    simp only [step] at hstep; cases hstep
    refine Ordered_congr g _ ?_ ?_ h <;>
    · simp only [flap, startGame, bird_flap]; split_ifs <;> rfl
  | startRequested =>
    simp only [step] at hstep; cases hstep
    exact Ordered_congr g _ rfl rfl h
  | restartRequested =>
    simp only [step] at hstep; cases hstep
    exact ⟨List.Pairwise.nil, by intro p hp; cases hp⟩
  | resize w1 h1 =>
    simp only [step] at hstep; cases hstep
    refine ⟨h.1, fun p hp => le_trans (h.2 p hp) ?_⟩
    exact_mod_cast hw

theorem step_canvasWidth (g g1 : Game) (e : Event) (hstep : step g e = Except.ok g1) :
    (∀ w1 h1, e = Event.resize w1 h1 → g1.canvasWidth = w1) ∧
      ((∀ w1 h1, e ≠ Event.resize w1 h1) → g1.canvasWidth = g.canvasWidth) := by
  cases e with
  | tick inp =>
    simp only [step] at hstep
    refine ⟨(by intro _ _ h; cases h), fun _ => ?_⟩
    rcases loop_eq_cases g inp with ⟨_, hl⟩ | ⟨_, g2, hl, _, _, _, _, _, hcw, _⟩
    · rw [hl] at hstep; cases hstep
      exact afterTick_canvasWidth g inp.random
    · rw [hl] at hstep; cases hstep
      exact hcw
  | flap =>
    simp only [step] at hstep; cases hstep
    refine ⟨(by intro _ _ h; cases h), fun _ => ?_⟩
    simp only [flap, startGame, bird_flap]; split_ifs <;> rfl
  | startRequested =>
    simp only [step] at hstep; cases hstep
    exact ⟨(by intro _ _ h; cases h), fun _ => rfl⟩
  | restartRequested =>
    simp only [step] at hstep; cases hstep
    exact ⟨(by intro _ _ h; cases h), fun _ => rfl⟩
  | resize w1 h1 =>
    simp only [step] at hstep; cases hstep
    exact ⟨(by intro _ _ h; cases h; rfl), fun hne => absurd rfl (hne w1 h1)⟩

theorem run_ordered : ∀ (evs : List Event) (g g1 : Game), Ordered g →
    run g evs = Except.ok g1 → widthNeverShrinks g.canvasWidth evs = true → Ordered g1 := by
  intro evs
  induction evs with
  | nil =>
    intro g g1 hP h _
    simp only [run] at h
    cases h
    exact hP
  | cons e es ih =>
    intro g g2 hP h hmono
    obtain ⟨g1, h1, h2⟩ := run_cons g e es g2 h
    have hcw := step_canvasWidth g g1 e h1
    cases e with
    | resize w1 h1' =>
      simp only [widthNeverShrinks, Bool.and_eq_true, decide_eq_true_eq] at hmono
      have hw1 : g1.canvasWidth = w1 := hcw.1 w1 h1' rfl
      refine ih g1 g2 (step_ordered g g1 _ hP h1 (by rw [hw1]; exact hmono.1)) h2 ?_
      rw [hw1]; exact hmono.2
    | tick inp =>
      have hw1 : g1.canvasWidth = g.canvasWidth := hcw.2 (by intro _ _ h; cases h)
      refine ih g1 g2 (step_ordered g g1 _ hP h1 (le_of_eq hw1.symm)) h2 ?_
      rw [hw1]; exact hmono
    | flap =>
      have hw1 : g1.canvasWidth = g.canvasWidth := hcw.2 (by intro _ _ h; cases h)
      refine ih g1 g2 (step_ordered g g1 _ hP h1 (le_of_eq hw1.symm)) h2 ?_
      rw [hw1]; exact hmono
    | startRequested =>
      have hw1 : g1.canvasWidth = g.canvasWidth := hcw.2 (by intro _ _ h; cases h)
      refine ih g1 g2 (step_ordered g g1 _ hP h1 (le_of_eq hw1.symm)) h2 ?_
      rw [hw1]; exact hmono
    | restartRequested =>
      have hw1 : g1.canvasWidth = g.canvasWidth := hcw.2 (by intro _ _ h; cases h)
      refine ih g1 g2 (step_ordered g g1 _ hP h1 (le_of_eq hw1.symm)) h2 ?_
      rw [hw1]; exact hmono

theorem step_idle (g g1 : Game) (e : Event)
    (h : g.currentState = GameState.START → g.score = 0 ∧ g.frames = 0 ∧ g.items = [])
    (hstep : step g e = Except.ok g1) :
    g1.currentState = GameState.START → g1.score = 0 ∧ g1.frames = 0 ∧ g1.items = [] := by
  intro h1
  cases e with
  | tick inp =>
    simp only [step] at hstep
    rcases loop_eq_cases g inp with ⟨hp, hl⟩ | ⟨_, g2, hl, hc, hi, hs, hf, _⟩
    · rw [hl] at hstep; cases hstep
      rcases afterTick_currentState_cases g inp.random with h2 | h2
      · rw [h2] at h1; cases h1
      · rw [h2, hp] at h1; cases h1
    · rw [hl] at hstep; cases hstep
      rw [hc] at h1
      rw [hs, hf, hi]
      exact h h1
  | flap =>
    simp only [step] at hstep; cases hstep
    cases hs : g.currentState with
    | START => simp [flap, hs, startGame, bird_flap] at h1
    | PLAYING => simp [flap, hs, bird_flap] at h1
    | GAMEOVER => simp [flap, hs] at h1
  | startRequested =>
    simp only [step] at hstep; cases hstep
    cases h1
  | restartRequested =>
    simp only [step] at hstep; cases hstep
    exact ⟨rfl, rfl, rfl⟩
  | resize w1 h1' =>
    simp only [step] at hstep; cases hstep
    exact h h1


theorem run_append (es1 : List Event) : ∀ (g g1 : Game) (es2 : List Event),
    run g es1 = Except.ok g1 → run g (es1 ++ es2) = run g1 es2 := by
  induction es1 with
  | nil =>
    intro g g1 es2 h
    simp only [run] at h
    cases h
    rfl
  | cons e es ih =>
    intro g g2 es2 h
    obtain ⟨g1, h1, h2⟩ := run_cons g e es g2 h
    simp only [List.cons_append, run, h1]
    exact ih g1 g2 es2 h2

theorem flap_gameover (g : Game) (h : g.currentState = GameState.GAMEOVER) : flap g = g := by
  simp [flap, h]

theorem run_frozen (evs : List Event) : ∀ (g : Game), g.currentState = GameState.GAMEOVER →
    (∀ e ∈ evs, e = Event.flap ∨ ∃ inp, e = Event.tick inp) →
    ∃ g1, run g evs = Except.ok g1 ∧ g1.currentState = GameState.GAMEOVER ∧
      g1.highScore = g.highScore := by
  induction evs with
  | nil => intro g hg _; exact ⟨g, rfl, hg, rfl⟩
  | cons e es ih =>
    intro g hg hev
    have hes : ∀ e ∈ es, e = Event.flap ∨ ∃ inp, e = Event.tick inp :=
      fun e he => hev e (List.mem_cons_of_mem _ he)
    rcases hev e (List.mem_cons_self _ _) with rfl | ⟨inp, rfl⟩
    · obtain ⟨g1, h1, h2, h3⟩ := ih g hg hes
      refine ⟨g1, ?_, h2, h3⟩
      simp only [run, step, flap_gameover g hg]
      exact h1
    · obtain ⟨g1, h1, h2, h3⟩ := ih (background_update g) hg hes
      refine ⟨g1, ?_, h2, h3⟩
      simp only [run, step, loop_gameover g inp hg]
      exact h1

theorem pipes_for_short (todo : List Pipe) : ∀ (done : List Pipe) (g : Game) (fuel : ℕ),
    g.items = done ++ todo → fuel < todo.length →
    pipes_for fuel g (done.length : ℤ) = Except.error Fault.outOfFuel := by
  induction todo with
  | nil => intro done g fuel _ h; simp at h
  | cons p rest ih =>
    intro done g fuel hitems hfuel
    have hlt : ((done.length : ℤ) < (g.items.length : ℤ)) := by simp [hitems]
    have hget : g.items.get? (done.length : ℤ).toNat = some p := by
      rw [hitems, Int.toNat_ofNat, List.get?_eq_getElem?,
        List.getElem?_append_right (le_refl _)]
      simp
    unfold pipes_for
    rw [if_pos hlt]
    cases fuel with
    | zero => rfl
    | succ fuel =>
      simp only [Int.natCast_nonneg, if_true, hget, pipes_body_eq]
      have hset : g.items.set (done.length : ℤ).toNat (advance g.bird.x p)
          = (done ++ [advance g.bird.x p]) ++ rest := by simp [hitems]
      rw [hset]
      have hf : fuel < rest.length := by simpa using hfuel
      by_cases hoff : offscreen (advance g.bird.x p) = true
      · simp only [hoff, if_true, sub_add_cancel]
        have hlen : ((done ++ [advance g.bird.x p]).tail).length = done.length := by simp
        have htail : ((done ++ [advance g.bird.x p]) ++ rest).tail
            = (done ++ [advance g.bird.x p]).tail ++ rest := by
          cases done <;> rfl
        rw [htail, ← hlen]
        exact ih _ _ fuel rfl hf
      · simp only [hoff, Bool.false_eq_true, if_false]
        have hlen : (done ++ [advance g.bird.x p]).length = done.length + 1 := by simp
        have : ((done.length : ℤ) + 1) = (((done ++ [advance g.bird.x p]).length : ℕ) : ℤ) := by
          rw [hlen]; push_cast; rfl
        rw [this]
        exact ih _ _ fuel rfl hf

theorem pipes_for_fuel (g : Game) (fuel : ℕ) :
    pipes_for fuel g 0 =
      if g.items.length ≤ fuel then
        Except.ok (setItems (visitAll g g.items)
          ((g.items.map (advance g.bird.x)).drop
            ((g.items.map (advance g.bird.x)).countP offscreen)))
      else Except.error Fault.outOfFuel := by
  split_ifs with h
  · have := pipes_for_eq g.items [] g fuel (by simp) h
    simpa using this
  · have := pipes_for_short g.items [] g fuel (by simp) (not_le.mp h)
    simpa using this

theorem afterTick_bird (g : Game) (random : ℚ) :
    (afterTick g random).bird = (bird_update (background_update g)).bird := by
  show (visitAll _ _).bird = _
  rw [visitAll_bird, pipes_spawn_bird]

theorem bird_update_velocity (g : Game) :
    (bird_update g).bird.velocity = g.bird.velocity + GRAVITY := by
  simp only [bird_update, gameOver_eq]; split_ifs <;> rfl

theorem bird_update_y (g : Game) :
    (bird_update g).bird.y =
      (if g.bird.y + (g.bird.velocity + GRAVITY) + g.bird.radius ≥ (g.canvasHeight : ℚ)
       then (g.canvasHeight : ℚ) - g.bird.radius
       else g.bird.y + (g.bird.velocity + GRAVITY)) := by
  simp only [bird_update, gameOver_eq]; split_ifs <;> rfl

theorem flap_playing (g : Game) (h : g.currentState = GameState.PLAYING) :
    flap g = bird_flap g := by
  simp [flap, h]

theorem visit_highScore_ge (g : Game) (p : Pipe) : g.highScore ≤ (visit g p).highScore := by
  simp only [visit]
  split_ifs <;> first | exact le_max_left _ _ | exact Nat.le_refl _

theorem visitAll_highScore_ge (l : List Pipe) (g : Game) :
    g.highScore ≤ (visitAll g l).highScore := by
  induction l generalizing g with
  | nil => exact Nat.le_refl _
  | cons p l ih =>
    rw [visitAll_cons]
    exact le_trans (visit_highScore_ge g p) (ih _)

theorem visitAll_highScore_of_no_hit (l : List Pipe) (g : Game)
    (h : l.any (fun p => hitsPipe g.bird (advance g.bird.x p)) = false) :
    (visitAll g l).highScore = g.highScore := by
  induction l generalizing g with
  | nil => rfl
  | cons p l ih =>
    rw [List.any_cons, Bool.or_eq_false_iff] at h
    rw [visitAll_cons, ih (visit g p) (by rw [visit_bird]; exact h.2)]
    simp only [visit, h.1, Bool.false_eq_true, if_false]

theorem pipes_spawn_highScore (g : Game) (random : ℚ) :
    (pipes_spawn g random).highScore = g.highScore := by
  unfold pipes_spawn; split_ifs <;> rfl

theorem bird_update_highScore (g : Game) :
    (bird_update g).highScore =
      (if g.bird.y + (g.bird.velocity + GRAVITY) + g.bird.radius ≥ (g.canvasHeight : ℚ)
       then max g.highScore g.score else g.highScore) := by
  simp only [bird_update, gameOver_eq]; split_ifs <;> rfl

theorem afterTick_highScore_ge (g : Game) (random : ℚ) :
    g.highScore ≤ (afterTick g random).highScore := by
  show _ ≤ (visitAll _ _).highScore
  refine le_trans ?_ (visitAll_highScore_ge _ _)
  rw [pipes_spawn_highScore, bird_update_highScore]
  split_ifs
  · exact le_max_left _ _
  · exact Nat.le_refl _

theorem afterTick_highScore_of_not_gameover (g : Game) (random : ℚ)
    (h : (afterTick g random).currentState ≠ GameState.GAMEOVER) :
    (afterTick g random).highScore = g.highScore := by
  have hcs : (afterPipes (bird_update (background_update g)) random).currentState
      ≠ GameState.GAMEOVER := h
  rw [afterPipes_currentState] at hcs
  have hany : (pipes_spawn (bird_update (background_update g)) random).items.any
      (fun p => hitsPipe (bird_update (background_update g)).bird
        (advance (bird_update (background_update g)).bird.x p)) = false := by
    by_contra hc
    rw [Bool.not_eq_false] at hc
    rw [if_pos hc] at hcs
    exact hcs rfl
  rw [hany] at hcs
  simp only [Bool.false_eq_true, if_false] at hcs
  rw [bird_update_currentState] at hcs
  have hfloor : ¬ ((background_update g).bird.y +
      ((background_update g).bird.velocity + GRAVITY) + (background_update g).bird.radius
        ≥ ((background_update g).canvasHeight : ℚ)) := by
    intro hc
    rw [if_pos hc] at hcs
    exact hcs rfl
  show (visitAll _ _).highScore = _
  rw [visitAll_highScore_of_no_hit _ _ (by rw [pipes_spawn_bird]; exact hany),
    pipes_spawn_highScore, bird_update_highScore, if_neg hfloor]
  rfl

/-- What `resetGame` does after a call of `gameOver` in a state with score `s`
and best score `b`, with any ticks and flaps in between: `START`, score 0,
frames 0, an empty pipe list, the bird at `y = 150`, velocity 0, rotation 0,
and the best score `max b s` that `gameOver` wrote.  From every `GAMEOVER`
state the same events give the same reset values and keep the best score of
that state. -/
theorem resetGame_after_gameOver (g : Game) (evs : List Event)
    (hevs : ∀ e ∈ evs, e = Event.flap ∨ ∃ inp, e = Event.tick inp) :
    (∃ g2, run (gameOver g) (evs ++ [Event.restartRequested]) = Except.ok g2 ∧
        g2.currentState = GameState.START ∧ g2.score = 0 ∧ g2.frames = 0 ∧ g2.items = [] ∧
        g2.bird.y = 150 ∧ g2.bird.velocity = 0 ∧ g2.bird.rotation = 0 ∧
        g2.highScore = max g.highScore g.score) ∧
      (∀ g1 : Game, g1.currentState = GameState.GAMEOVER →
        ∃ g2, run g1 (evs ++ [Event.restartRequested]) = Except.ok g2 ∧
          g2.currentState = GameState.START ∧ g2.score = 0 ∧ g2.frames = 0 ∧ g2.items = [] ∧
          g2.bird.y = 150 ∧ g2.bird.velocity = 0 ∧ g2.bird.rotation = 0 ∧
          g2.highScore = g1.highScore) ∧
      ∀ g1 : Game, (resetGame g1).highScore = g1.highScore := by
  have key : ∀ g1 : Game, g1.currentState = GameState.GAMEOVER →
      ∃ g2, run g1 (evs ++ [Event.restartRequested]) = Except.ok g2 ∧
        g2.currentState = GameState.START ∧ g2.score = 0 ∧ g2.frames = 0 ∧ g2.items = [] ∧
        g2.bird.y = 150 ∧ g2.bird.velocity = 0 ∧ g2.bird.rotation = 0 ∧
        g2.highScore = g1.highScore := by
    intro g1 hgo
    obtain ⟨g3, h1, _, h3⟩ := run_frozen evs g1 hgo hevs
    refine ⟨resetGame g3, ?_, rfl, rfl, rfl, rfl, rfl, rfl, rfl, h3⟩
    rw [run_append evs _ g3 _ h1]
    rfl
  refine ⟨?_, key, fun _ => rfl⟩
  have hgo : (gameOver g).currentState = GameState.GAMEOVER := by rw [gameOver_eq]
  obtain ⟨g2, h1, h2, h3, h4, h5, h6, h7, h8, h9⟩ := key (gameOver g) hgo
  refine ⟨g2, h1, h2, h3, h4, h5, h6, h7, h8, ?_⟩
  rw [h9, gameOver_eq]

/-! ## The claims -/

/-- C1. Exactly-once scoring.  One call of `pipes.update` returns; every pair
that is still in the list afterwards is a pair of the list after the spawn
step, moved left by `PIPE_SPEED`, whose `passed` flag is the old flag or-ed
with the crossing test (so a flag that was true stays true, and a flag flips
exactly when the advanced pair has `x + PIPE_WIDTH < bird.x` and was not yet
passed); and the score grows by exactly the number of pairs that flip. -/
theorem C1_exactly_once_scoring (g : Game) (random : ℚ) :
    ∃ g1 k, pipes_update g random = Except.ok g1 ∧
      g1.items =
        ((pipes_spawn g random).items.map (fun p =>
          ({ x := p.x - PIPE_SPEED, y := p.y,
             passed := p.passed || decide (p.x - PIPE_SPEED + PIPE_WIDTH < g.bird.x) } : Pipe))).drop k ∧
      g1.score = g.score +
        ((pipes_spawn g random).items.filter (fun p =>
          decide (p.x - PIPE_SPEED + PIPE_WIDTH < g.bird.x) && !p.passed)).length := by
  refine ⟨_, _, pipes_update_eq g random, rfl, ?_⟩
  rw [setItems_score, visitAll_score, pipes_spawn_score, pipes_spawn_bird, List.countP_eq_length_filter]
  rfl

/-- C2 (the code at the failing input).  The state `c2_state` is reached from
the initial state by `c2_trace` and is `PLAYING`.  One tick from it ends in
`GAMEOVER` with score 1 but leaves `highScore` at 0: `gameOver` ran from the
floor test of `bird.update` while the score was still 0, after which
`pipes.update` counted the pair being passed.  So `highScore` is not
`max highScore score` for the score held in the resulting state. -/
theorem C2_score_counted_after_gameOver :
    run (initial 100 600 0) c2_trace = Except.ok c2_state ∧
      c2_state.currentState = GameState.PLAYING ∧
      loop c2_state ⟨0, 0⟩ = Except.ok c2_final ∧
      c2_final.currentState = GameState.GAMEOVER ∧
      c2_final.score = 1 ∧ c2_final.highScore = 0 ∧
      c2_final.highScore ≠ max c2_state.highScore c2_final.score := by
  decide!

/-- C3 (counterexample).  On a canvas of height 100 the first tick after a
flap ends the run at the floor; in the resulting `GAMEOVER` state the event
`startRequested` (the handler `startGame`) leads directly to `PLAYING`. -/
theorem C3_gameover_to_playing :
    (run (initial 800 100 0) [Event.flap, Event.tick ⟨0, 0⟩]).map (fun g => g.currentState)
        = Except.ok GameState.GAMEOVER ∧
      (run (initial 800 100 0) [Event.flap, Event.tick ⟨0, 0⟩, Event.startRequested]).map
        (fun g => g.currentState) = Except.ok GameState.PLAYING := by
  decide!

/-- C3 (amended).  Whenever an event changes the lifecycle state, the change is
one of: `START` to `PLAYING` (by `flap` or `startRequested`), `PLAYING` to
`GAMEOVER` (by a tick), `GAMEOVER` to `START` (by `restartRequested`), or one
of the two changes that the unguarded handlers allow, `GAMEOVER` to `PLAYING`
(by `startRequested`) and `PLAYING` to `START` (by `restartRequested`).  In
particular nothing takes `START` directly to `GAMEOVER`, and a tick or a flap
never takes `PLAYING` to `START` or `GAMEOVER` to `PLAYING`. -/
theorem C3_lifecycle_transitions (g g1 : Game) (e : Event)
    (hstep : step g e = Except.ok g1) (hne : g1.currentState ≠ g.currentState) :
    (g.currentState = GameState.START ∧ g1.currentState = GameState.PLAYING ∧
        (e = Event.flap ∨ e = Event.startRequested)) ∨
      (g.currentState = GameState.PLAYING ∧ g1.currentState = GameState.GAMEOVER ∧
        ∃ inp, e = Event.tick inp) ∨
      (g.currentState = GameState.GAMEOVER ∧ g1.currentState = GameState.START ∧
        e = Event.restartRequested) ∨
      (g.currentState = GameState.GAMEOVER ∧ g1.currentState = GameState.PLAYING ∧
        e = Event.startRequested) ∨
      (g.currentState = GameState.PLAYING ∧ g1.currentState = GameState.START ∧
        e = Event.restartRequested) := by
  cases e with
  | tick inp =>
    simp only [step] at hstep
    cases hs : g.currentState with
    | START =>
      rw [loop_start g inp hs] at hstep
      cases hstep
      exact absurd rfl hne
    | PLAYING =>
      rw [loop_playing g inp hs] at hstep
      cases hstep
      rcases afterTick_currentState_cases g inp.random with h | h
      · exact Or.inr (Or.inl ⟨rfl, h, inp, rfl⟩)
      · exact absurd h hne
    | GAMEOVER =>
      rw [loop_gameover g inp hs] at hstep
      cases hstep
      exact absurd rfl hne
  | flap =>
    simp only [step] at hstep
    cases hstep
    cases hs : g.currentState with
    | START => exact Or.inl ⟨rfl, by simp [flap, hs, startGame, bird_flap], Or.inl rfl⟩
    | PLAYING => exact absurd (by simp [flap, hs, bird_flap]) hne
    | GAMEOVER => exact absurd (by simp [flap, hs]) hne
  | startRequested =>
    simp only [step] at hstep
    cases hstep
    have h1 : (startGame g).currentState = GameState.PLAYING := rfl
    cases hs : g.currentState with
    | START => exact Or.inl ⟨rfl, h1, Or.inr rfl⟩
    | PLAYING => exact absurd (h1.trans hs.symm) hne
    | GAMEOVER => exact Or.inr (Or.inr (Or.inr (Or.inl ⟨rfl, h1, rfl⟩)))
  | restartRequested =>
    simp only [step] at hstep
    cases hstep
    have h1 : (resetGame g).currentState = GameState.START := rfl
    cases hs : g.currentState with
    | START => exact absurd (h1.trans hs.symm) hne
    | PLAYING => exact Or.inr (Or.inr (Or.inr (Or.inr ⟨rfl, h1, rfl⟩)))
    | GAMEOVER => exact Or.inr (Or.inr (Or.inl ⟨rfl, h1, rfl⟩))
  | resize w h =>
    simp only [step] at hstep
    cases hstep
    exact absurd rfl hne

/-- C3 (witness): the flap that starts the first session. -/
theorem C3_lifecycle_transitions_witness :
    step (initial 800 600 0) Event.flap = Except.ok (flap (initial 800 600 0)) ∧
      (flap (initial 800 600 0)).currentState ≠ (initial 800 600 0).currentState ∧
      (((initial 800 600 0).currentState = GameState.START ∧
          (flap (initial 800 600 0)).currentState = GameState.PLAYING ∧
          (Event.flap = Event.flap ∨ Event.flap = Event.startRequested)) ∨
        ((initial 800 600 0).currentState = GameState.PLAYING ∧
          (flap (initial 800 600 0)).currentState = GameState.GAMEOVER ∧
          ∃ inp, Event.flap = Event.tick inp) ∨
        ((initial 800 600 0).currentState = GameState.GAMEOVER ∧
          (flap (initial 800 600 0)).currentState = GameState.START ∧
          Event.flap = Event.restartRequested) ∨
        ((initial 800 600 0).currentState = GameState.GAMEOVER ∧
          (flap (initial 800 600 0)).currentState = GameState.PLAYING ∧
          Event.flap = Event.startRequested) ∨
        ((initial 800 600 0).currentState = GameState.PLAYING ∧
          (flap (initial 800 600 0)).currentState = GameState.START ∧
          Event.flap = Event.restartRequested)) :=
  ⟨rfl, by decide,
    C3_lifecycle_transitions (initial 800 600 0) (flap (initial 800 600 0)) Event.flap rfl
      (by decide)⟩

/-- C4. Collision always ends the run.  For every `PLAYING` state and tick: if
the integrated bird position reaches the floor (`y + radius >= canvas.height`)
or the collision test of `pipes.update` fires for at least one pair of the
list (after the spawn step, each pair tested after being advanced, against
the bird as `bird.update` left it), then the tick returns and the state read
after it is `GAMEOVER`. -/
theorem C4_collision_ends_run (g : Game) (inp : TickInput)
    (hplay : g.currentState = GameState.PLAYING)
    (hcol : g.bird.y + (g.bird.velocity + GRAVITY) + g.bird.radius ≥ (g.canvasHeight : ℚ) ∨
      ∃ p ∈ (pipes_spawn (bird_update (background_update g)) inp.random).items,
        hitsPipe (bird_update (background_update g)).bird { p with x := p.x - PIPE_SPEED } = true) :
    ∃ g1, loop g inp = Except.ok g1 ∧ g1.currentState = GameState.GAMEOVER := by
  refine ⟨_, loop_playing g inp hplay, ?_⟩
  show (afterPipes _ _).currentState = _
  rw [afterPipes_currentState]
  rcases hcol with hfloor | ⟨p, hp, hhit⟩
  · have : (bird_update (background_update g)).currentState = GameState.GAMEOVER := by
      rw [bird_update_currentState]
      exact if_pos hfloor
    rw [this]
    split_ifs <;> rfl
  · have : (pipes_spawn (bird_update (background_update g)) inp.random).items.any
        (fun p => hitsPipe (bird_update (background_update g)).bird
          (advance (bird_update (background_update g)).bird.x p)) = true :=
      List.any_eq_true.mpr ⟨p, hp, hhit⟩
    rw [if_pos this]

/-- C4 (witness): on a canvas of height 100 the bird is below the floor on the
first tick after the flap. -/
theorem C4_collision_ends_run_witness :
    (flap (initial 800 100 0)).currentState = GameState.PLAYING ∧
      (flap (initial 800 100 0)).bird.y +
          ((flap (initial 800 100 0)).bird.velocity + GRAVITY) +
          (flap (initial 800 100 0)).bird.radius ≥ ((flap (initial 800 100 0)).canvasHeight : ℚ) ∧
      ∃ g1, loop (flap (initial 800 100 0)) ⟨0, 0⟩ = Except.ok g1 ∧
        g1.currentState = GameState.GAMEOVER :=
  ⟨by decide, by decide!,
    C4_collision_ends_run (flap (initial 800 100 0)) ⟨0, 0⟩ (by decide) (Or.inl (by decide!))⟩

/-- C5. Obstacle collision predicate.  The test of `pipes.update` fires for a
pair `p` (with `x` already advanced) and a bird `b` if and only if the pair
overlaps the bird horizontally (`b.x + radius > p.x` and
`b.x - radius < p.x + PIPE_WIDTH`) and the vertical extent
`[b.y - radius, b.y + radius]` is not inside `[p.y, p.y + PIPE_GAP]`; the loop
body moves to `GAMEOVER` exactly when it was there already or the test fires
for the advanced pair.  With gap top 300, gap 170, radius 15 and overlapping
`x`: `y = 500` fires, `y = 380` does not. -/
theorem C5_collision_predicate (b : Bird) (p : Pipe) (g : Game) (i : ℤ) (q : Pipe) :
    (hitsPipe b p = true ↔
        ((b.x + b.radius > p.x ∧ b.x - b.radius < p.x + PIPE_WIDTH) ∧
          ¬ (p.y ≤ b.y - b.radius ∧ b.y + b.radius ≤ p.y + PIPE_GAP))) ∧
      ((pipes_body g i q).1.currentState = GameState.GAMEOVER ↔
        (g.currentState = GameState.GAMEOVER ∨
          hitsPipe g.bird { q with x := q.x - PIPE_SPEED } = true)) ∧
      PIPE_GAP = 170 ∧
      hitsPipe { x := 50, y := 500, radius := 15, velocity := 0, rotation := 0 }
        { x := 40, y := 300, passed := false } = true ∧
      hitsPipe { x := 50, y := 380, radius := 15, velocity := 0, rotation := 0 }
        { x := 40, y := 300, passed := false } = false := by
  refine ⟨?_, ?_, rfl, by decide!, by decide!⟩
  · simp only [hitsPipe, Bool.and_eq_true, Bool.or_eq_true, decide_eq_true_eq, not_and_or,
      not_le]
  · rw [pipes_body_eq]
    show (visit g q).currentState = _ ↔ _
    have hadv : hitsPipe g.bird (advance g.bird.x q)
        = hitsPipe g.bird { q with x := q.x - PIPE_SPEED } := rfl
    simp only [visit, hadv]
    split_ifs with h
    · simp [h]
    · simp [h]

/-- C6 (the code at the failing input).  The state `c6_state` is reached from
the initial state by `c6_trace`; its list holds a pair at `x = 540` followed
by a pair at `x = -60`.  In the next `pipes.update` the second pair moves to
`x = -62.5` and meets the removal test, and `shift()` removes the first pair
instead: the list left is the pair past the left edge, while the two-pass
filter of the advanced list keeps exactly the other pair. -/
theorem C6_shift_removes_other_pair :
    run (initial 1000 600 0) c6_trace = Except.ok c6_state ∧
      c6_state.items =
        [{ x := 540, y := 50, passed := false }, { x := -60, y := 50, passed := true }] ∧
      (pipes_update c6_state 0).map (fun g => g.items)
        = Except.ok [{ x := -125 / 2, y := 50, passed := true }] ∧
      ([{ x := 540 - PIPE_SPEED, y := 50, passed := false },
        { x := -60 - PIPE_SPEED, y := 50, passed := true }] : List Pipe).filter
          (fun p => decide (p.x + PIPE_WIDTH ≥ 0))
        = [{ x := 1075 / 2, y := 50, passed := false }] ∧
      (loop c6_state ⟨0, 0⟩).map (fun g => (g.currentState, g.items))
        = Except.ok (GameState.PLAYING, [{ x := -125 / 2, y := 50, passed := true }]) := by
  decide!

/-- C7 (counterexample).  After `c7_trace`, in which the canvas shrinks from
width 1000 to width 100 between two spawns, the earlier pair is at
`x = 697.5` and the later pair, behind it in the list, at `x = 97.5`: the
list is not sorted by horizontal position. -/
theorem C7_resize_breaks_order :
    (run (initial 1000 600 0) c7_trace).map (fun g => g.items)
        = Except.ok [{ x := 1395 / 2, y := 50, passed := false },
                     { x := 195 / 2, y := 50, passed := false }] ∧
      ¬ List.Pairwise (fun p q : Pipe => p.x ≤ q.x)
        [{ x := 1395 / 2, y := 50, passed := false }, { x := 195 / 2, y := 50, passed := false }] := by
  decide!

/-- C7 (amended).  In every state reached from the initial state by ticks,
input events and size changes: a tick in `PLAYING` keeps the surviving pairs
in their relative order (it drops `k` pairs from the front of the advanced
list) and puts the pair it spawns last, so list order is spawn order; and if
no size change made the canvas narrower, the list is sorted by horizontal
position (a pair that precedes another has an `x` that is not greater). -/
theorem C7_ordering (w h best : ℕ) (evs : List Event) (g : Game)
    (hrun : run (initial w h best) evs = Except.ok g) :
    (widthNeverShrinks w evs = true → g.items.Pairwise (fun p q => p.x ≤ q.x)) ∧
      (g.currentState = GameState.PLAYING → ∀ inp : TickInput, ∃ g1 k,
        loop g inp = Except.ok g1 ∧ k ≤ g.items.length ∧
        g1.items = (g.items.map (advance g.bird.x)).drop k ++
          (if g.frames % PIPE_SPAWN_RATE = 0 then [advance g.bird.x (newPipe g inp.random)]
           else [])) := by
  constructor
  · intro hmono
    have h0 : Ordered (initial w h best) := ⟨List.Pairwise.nil, by intro p hp; cases hp⟩
    exact (run_ordered evs (initial w h best) g h0 hrun hmono).1
  · intro hplay inp
    refine ⟨_, _, loop_playing g inp hplay, ?_, afterTick_items g inp.random⟩
    exact le_trans (List.countP_le_length _) (le_of_eq (List.length_map _ _))

/-- C7 (witness): four flap cycles on a canvas that is never resized. -/
theorem C7_ordering_witness :
    run (initial 1000 600 0) (flapCycle ++ flapCycle ++ flapCycle ++ flapCycle)
        = Except.ok c7_state ∧
      widthNeverShrinks 1000 (flapCycle ++ flapCycle ++ flapCycle ++ flapCycle) = true ∧
      c7_state.currentState = GameState.PLAYING ∧
      c7_state.items.Pairwise (fun p q => p.x ≤ q.x) :=
  ⟨by decide!, by decide!, by decide,
    (C7_ordering 1000 600 0 (flapCycle ++ flapCycle ++ flapCycle ++ flapCycle) c7_state
      (by decide!)).1 (by decide!)⟩

/-- C8 (counterexample).  On a canvas of height 100 (below 270) with
`frames = 0` and an empty list, `pipes.update` appends a pair all the same:
with draw 0 its gap top is 50, with draw 1/2 it is -35. -/
theorem C8_degenerate_spawn_happens :
    (startGame (initial 800 100 0)).frames % PIPE_SPAWN_RATE = 0 ∧
      (startGame (initial 800 100 0)).canvasHeight < 270 ∧
      (startGame (initial 800 100 0)).items = [] ∧
      (pipes_update (startGame (initial 800 100 0)) 0).map (fun g => g.items)
        = Except.ok [{ x := 1595 / 2, y := 50, passed := false }] ∧
      (pipes_update (startGame (initial 800 100 0)) (1 / 2)).map (fun g => g.items)
        = Except.ok [{ x := 1595 / 2, y := -35, passed := false }] := by
  decide!

/-- C8 (amended).  Degenerate spawn is not skipped.  On every call of
`pipes.update` with `frames mod PIPE_SPAWN_RATE = 0` on a canvas of height
below 270, whatever the random draw, the spawn block appends exactly one pair,
at `x = canvas.width` with `passed = false`; the call returns and that pair,
advanced once, is the last element of the list after it. -/
theorem C8_spawn_unguarded (g : Game) (random : ℚ)
    (hframes : g.frames % PIPE_SPAWN_RATE = 0) (_hheight : g.canvasHeight < 270) :
    (∃ p : Pipe, (pipes_spawn g random).items = g.items ++ [p] ∧
        p.x = (g.canvasWidth : ℚ) ∧ p.passed = false) ∧
      ∃ g1 k q, pipes_update g random = Except.ok g1 ∧ k ≤ g.items.length ∧
        g1.items = (g.items.map (advance g.bird.x)).drop k ++ [q] ∧
        q.x = (g.canvasWidth : ℚ) - PIPE_SPEED ∧
        g1.items.length = g.items.length - k + 1 := by
  have hitems := afterPipes_items g random
  rw [if_pos hframes] at hitems
  refine ⟨⟨newPipe g random, ?_, rfl, rfl⟩, ?_⟩
  · rw [pipes_spawn_items, if_pos hframes]
  · refine ⟨afterPipes g random, (g.items.map (advance g.bird.x)).countP offscreen,
      advance g.bird.x (newPipe g random), pipes_update_eq_afterPipes g random, ?_, hitems,
      rfl, ?_⟩
    · exact le_trans (List.countP_le_length _) (le_of_eq (List.length_map _ _))
    · rw [hitems]
      simp

/-- C8 (witness): the first call of a session on an 800 x 100 canvas. -/
theorem C8_spawn_unguarded_witness :
    (startGame (initial 800 100 0)).frames % PIPE_SPAWN_RATE = 0 ∧
      (startGame (initial 800 100 0)).canvasHeight < 270 ∧
      ∃ p : Pipe, (pipes_spawn (startGame (initial 800 100 0)) (1 / 2)).items =
          (startGame (initial 800 100 0)).items ++ [p] ∧
        p.x = ((startGame (initial 800 100 0)).canvasWidth : ℚ) ∧ p.passed = false :=
  ⟨by decide, by decide,
    (C8_spawn_unguarded (startGame (initial 800 100 0)) (1 / 2) (by decide) (by decide)).1⟩

/-- C9 (counterexample).  On an 800 x 600 canvas take the draw
`2285814916611007 / 2 ^ 52` (the double 0.5075528700906344, in `[0, 1)`).  The
multiplication by 331 rounds to exactly 168, so the pair pushed has gap top
218, whereas `floor(r * (600 - 269)) + 50` in exact arithmetic is 217. -/
theorem C9_exact_floor_differs :
    (initial 800 600 0).frames % PIPE_SPAWN_RATE = 0 ∧
      (0 : ℚ) ≤ 2285814916611007 / 4503599627370496 ∧
      (2285814916611007 / 4503599627370496 : ℚ) < 1 ∧
      toDouble (2285814916611007 / 4503599627370496) = 2285814916611007 / 4503599627370496 ∧
      (pipes_spawn (initial 800 600 0) (2285814916611007 / 4503599627370496)).items
        = [{ x := 800, y := 218, passed := false }] ∧
      Int.floor ((2285814916611007 / 4503599627370496 : ℚ) * (600 - 269)) + 50 = 217 := by
  decide!

/-- C9 (amended).  Spawn geometry.  On a spawn tick
(`frames mod PIPE_SPAWN_RATE = 0`) with canvas height `h >= 270` and a draw
that is a double with `0 <= random < 1`, the spawn block appends exactly one
pair, with `x = canvas.width`, `passed = false` and the integer gap top
`floor(p) + 50`, where `p` is the product `random * (h - 269)` rounded to a
double as the multiplication does; the gap top lies between 50 and
`h - 50 - PIPE_GAP`, so the top segment (length gap top) and the bottom segment
(length `h - gap top - PIPE_GAP`) are both at least 50. -/
theorem C9_spawn_geometry (g : Game) (random : ℚ)
    (hframes : g.frames % PIPE_SPAWN_RATE = 0) (hheight : 270 ≤ g.canvasHeight)
    (hdouble : toDouble random = random) (hr0 : 0 ≤ random) (hr1 : random < 1) :
    ∃ y : ℤ, y = Int.floor (toDouble (random * ((g.canvasHeight : ℚ) - 269))) + 50 ∧
      (pipes_spawn g random).items =
        g.items ++ [{ x := (g.canvasWidth : ℚ), y := (y : ℚ), passed := false }] ∧
      50 ≤ y ∧ y ≤ (g.canvasHeight : ℤ) - 50 - 170 ∧
      (50 : ℚ) ≤ (y : ℚ) ∧ (50 : ℚ) ≤ (g.canvasHeight : ℚ) - (y : ℚ) - PIPE_GAP := by
  have hh : (270 : ℚ) ≤ (g.canvasHeight : ℚ) := by exact_mod_cast hheight
  have hn : (1 : ℚ) ≤ (g.canvasHeight : ℚ) - 269 := by linarith
  have hp0 : 0 ≤ toDouble (random * ((g.canvasHeight : ℚ) - 269)) :=
    toDouble_nonneg _ (mul_nonneg hr0 (by linarith))
  have hp1 : toDouble (random * ((g.canvasHeight : ℚ) - 269)) < (g.canvasHeight : ℚ) - 269 :=
    toDouble_mul_lt random _ hr0 (double_lt_one random hdouble hr1) hn
  have hlo : 0 ≤ Int.floor (toDouble (random * ((g.canvasHeight : ℚ) - 269))) :=
    Int.floor_nonneg.mpr hp0
  have hhi : Int.floor (toDouble (random * ((g.canvasHeight : ℚ) - 269)))
      < (g.canvasHeight : ℤ) - 269 := by
    rw [Int.floor_lt]
    push_cast
    exact hp1
  have hy1 : (50 : ℤ) ≤ Int.floor (toDouble (random * ((g.canvasHeight : ℚ) - 269))) + 50 := by
    omega
  have hy2 : Int.floor (toDouble (random * ((g.canvasHeight : ℚ) - 269))) + 50
      ≤ (g.canvasHeight : ℤ) - 50 - 170 := by omega
  have hy : (g.canvasHeight : ℚ) - 50 - PIPE_GAP - 50 + 1 = (g.canvasHeight : ℚ) - 269 := by
    simp only [PIPE_GAP]; ring
  refine ⟨_, rfl, ?_, hy1, hy2, ?_, ?_⟩
  · rw [pipes_spawn_items, if_pos hframes]
    simp only [newPipe, hy]
    push_cast
    rfl
  · exact_mod_cast hy1
  · have : ((Int.floor (toDouble (random * ((g.canvasHeight : ℚ) - 269))) + 50 : ℤ) : ℚ)
        ≤ (((g.canvasHeight : ℤ) - 50 - 170 : ℤ) : ℚ) := by exact_mod_cast hy2
    push_cast at this ⊢
    simp only [PIPE_GAP]
    linarith

/-- C9 (witness): the first spawn on an 800 x 600 canvas with the draw
`2285814916611007 / 2 ^ 52`; the gap top is 218. -/
theorem C9_spawn_geometry_witness :
    (initial 800 600 0).frames % PIPE_SPAWN_RATE = 0 ∧ 270 ≤ (initial 800 600 0).canvasHeight ∧
      toDouble (2285814916611007 / 4503599627370496) = 2285814916611007 / 4503599627370496 ∧
      (0 : ℚ) ≤ 2285814916611007 / 4503599627370496 ∧
      (2285814916611007 / 4503599627370496 : ℚ) < 1 ∧
      ∃ y : ℤ, y = Int.floor (toDouble ((2285814916611007 / 4503599627370496 : ℚ) *
            (((initial 800 600 0).canvasHeight : ℚ) - 269))) + 50 ∧
        (pipes_spawn (initial 800 600 0) (2285814916611007 / 4503599627370496)).items =
          (initial 800 600 0).items ++
            [{ x := ((initial 800 600 0).canvasWidth : ℚ), y := (y : ℚ), passed := false }] ∧
        50 ≤ y ∧ y ≤ ((initial 800 600 0).canvasHeight : ℤ) - 50 - 170 ∧
        (50 : ℚ) ≤ (y : ℚ) ∧
        (50 : ℚ) ≤ ((initial 800 600 0).canvasHeight : ℚ) - (y : ℚ) - PIPE_GAP :=
  ⟨by decide, by decide, by decide!, by decide!, by decide!,
    C9_spawn_geometry (initial 800 600 0) (2285814916611007 / 4503599627370496) (by decide)
      (by decide) (by decide!) (by decide!) (by decide!)⟩

/-- C10. Idle invariant.  In every state reached from the initial state by
ticks, flaps, start, restart and resize events whose lifecycle state is
`START`: score = 0, frames = 0 and the pipe list is empty; and a tick taken
in that state returns, stays in `START` and leaves all three unchanged. -/
theorem C10_idle_invariant (w h best : ℕ) (evs : List Event) (g : Game)
    (hrun : run (initial w h best) evs = Except.ok g)
    (hstart : g.currentState = GameState.START) :
    (g.score = 0 ∧ g.frames = 0 ∧ g.items = []) ∧
      ∀ inp : TickInput, ∃ g1, loop g inp = Except.ok g1 ∧
        g1.currentState = GameState.START ∧
        g1.score = g.score ∧ g1.frames = g.frames ∧ g1.items = g.items := by
  constructor
  · exact run_invariant
      (fun g => g.currentState = GameState.START → g.score = 0 ∧ g.frames = 0 ∧ g.items = [])
      (fun g e g1 => step_idle g g1 e) evs (initial w h best) g (fun _ => ⟨rfl, rfl, rfl⟩) hrun hstart
  · intro inp
    exact ⟨_, loop_start g inp hstart, hstart, rfl, rfl, rfl⟩

/-- C10 (witness): a session that is started by a flap and then reset. -/
theorem C10_idle_invariant_witness :
    run (initial 800 600 3) [Event.flap, Event.restartRequested]
        = Except.ok (resetGame (flap (initial 800 600 3))) ∧
      (resetGame (flap (initial 800 600 3))).currentState = GameState.START ∧
      ((resetGame (flap (initial 800 600 3))).score = 0 ∧
        (resetGame (flap (initial 800 600 3))).frames = 0 ∧
        (resetGame (flap (initial 800 600 3))).items = []) :=
  ⟨rfl, rfl,
    (C10_idle_invariant 800 600 3 [Event.flap, Event.restartRequested]
      (resetGame (flap (initial 800 600 3))) rfl rfl).1⟩

/-- C11 (the code at the failing input).  The tick from `c2_state` enters
`GAMEOVER` with score 1 while the best score before it is 0.  The restart that
follows resets state, score, frames, pipe list and bird as the claim says, but
the best score stays 0 and is not `max 0 1`: `gameOver` ran while the score
was still 0.  The whole session is reachable from the initial state. -/
theorem C11_restart_keeps_stale_best :
    run (initial 100 600 0) (c2_trace ++ [Event.tick ⟨0, 0⟩, Event.restartRequested])
        = Except.ok (resetGame c2_final) ∧
      c2_state.currentState = GameState.PLAYING ∧ c2_state.highScore = 0 ∧
      step c2_state (Event.tick ⟨0, 0⟩) = Except.ok c2_final ∧
      c2_final.currentState = GameState.GAMEOVER ∧ c2_final.score = 1 ∧
      step c2_final Event.restartRequested = Except.ok (resetGame c2_final) ∧
      (resetGame c2_final).currentState = GameState.START ∧
      (resetGame c2_final).score = 0 ∧ (resetGame c2_final).frames = 0 ∧
      (resetGame c2_final).items = [] ∧
      (resetGame c2_final).bird.y = 150 ∧ (resetGame c2_final).bird.velocity = 0 ∧
      (resetGame c2_final).bird.rotation = 0 ∧
      (resetGame c2_final).highScore = 0 ∧
      (resetGame c2_final).highScore ≠ max c2_state.highScore c2_final.score := by
  decide!

/-- C12. Terminal state is frozen.  In a `GAMEOVER` state (with the constant
`background.speed = 1`) one call of `loop` returns the same state except that
`background.x` has decreased by exactly 1: bird, pipe list, score, frames,
best score and lifecycle state are unchanged.  A flap in `GAMEOVER` changes
nothing at all. -/
theorem C12_terminal_frozen (g : Game) (inp : TickInput)
    (hgo : g.currentState = GameState.GAMEOVER) (hspeed : g.background.speed = 1) :
    loop g inp = Except.ok { g with background := { x := g.background.x - 1, speed := 1 } } ∧
      flap g = g := by
  refine ⟨?_, flap_gameover g hgo⟩
  rw [loop_gameover g inp hgo]
  simp only [background_update, hspeed]

/-- C12 (witness): the state that `gameOver` leaves when called on the initial
state of an 800 x 100 canvas. -/
theorem C12_terminal_frozen_witness :
    (gameOver (initial 800 100 0)).currentState = GameState.GAMEOVER ∧
      (gameOver (initial 800 100 0)).background.speed = 1 ∧
      loop (gameOver (initial 800 100 0)) ⟨0, 0⟩ =
        Except.ok { gameOver (initial 800 100 0) with
          background := { x := (gameOver (initial 800 100 0)).background.x - 1, speed := 1 } } ∧
      flap (gameOver (initial 800 100 0)) = gameOver (initial 800 100 0) :=
  ⟨by decide, by decide!, C12_terminal_frozen (gameOver (initial 800 100 0)) ⟨0, 0⟩
    (by decide) (by decide!)⟩

/-- C13. Floor clamp.  After `bird.update` the bird satisfies
`y + radius <= canvas.height`.  If the integrated position
`y + (velocity + GRAVITY)` has `y + radius >= canvas.height`, the result is
exactly `y = canvas.height - radius` and `gameOver` has run (state `GAMEOVER`,
best score `max highScore score`); otherwise `y` is the integrated value and
state and best score are as before. -/
theorem C13_floor_clamp (g : Game) :
    (bird_update g).bird.y + (bird_update g).bird.radius ≤ (g.canvasHeight : ℚ) ∧
      (bird_update g).bird.y =
        (if g.bird.y + (g.bird.velocity + GRAVITY) + g.bird.radius ≥ (g.canvasHeight : ℚ)
         then (g.canvasHeight : ℚ) - g.bird.radius
         else g.bird.y + (g.bird.velocity + GRAVITY)) ∧
      (bird_update g).currentState =
        (if g.bird.y + (g.bird.velocity + GRAVITY) + g.bird.radius ≥ (g.canvasHeight : ℚ)
         then GameState.GAMEOVER else g.currentState) ∧
      (bird_update g).highScore =
        (if g.bird.y + (g.bird.velocity + GRAVITY) + g.bird.radius ≥ (g.canvasHeight : ℚ)
         then max g.highScore g.score else g.highScore) ∧
      (bird_update g).bird.radius = g.bird.radius := by
  have hy : (bird_update g).bird.y =
      (if g.bird.y + (g.bird.velocity + GRAVITY) + g.bird.radius ≥ (g.canvasHeight : ℚ)
       then (g.canvasHeight : ℚ) - g.bird.radius
       else g.bird.y + (g.bird.velocity + GRAVITY)) := by
    simp only [bird_update, gameOver_eq]; split_ifs <;> rfl
  have hr : (bird_update g).bird.radius = g.bird.radius := by
    simp only [bird_update, gameOver_eq]; split_ifs <;> rfl
  have hh : (bird_update g).highScore =
      (if g.bird.y + (g.bird.velocity + GRAVITY) + g.bird.radius ≥ (g.canvasHeight : ℚ)
       then max g.highScore g.score else g.highScore) := by
    simp only [bird_update, gameOver_eq]; split_ifs <;> rfl
  refine ⟨?_, hy, bird_update_currentState g, hh, hr⟩
  rw [hy, hr]
  split_ifs with h
  · simp
  · exact le_of_lt (not_le.mp h)

/-- C14. FIFO removal.  One call of `pipes.update` returns, and the list after
it is the list before it with every pair advanced and `k` pairs dropped from
the front (a suffix of the advanced list), followed by the pair spawned in
this call if there is one; `k` is the number of visited pairs that met the
removal test.  So the length grows by at most one, and it is smaller than
before only if `k > 0`. -/
theorem C14_fifo_removal (g : Game) (random : ℚ) :
    ∃ g1 k, pipes_update g random = Except.ok g1 ∧ k ≤ g.items.length ∧
      k = ((pipes_spawn g random).items.map (advance g.bird.x)).countP
            (fun p => decide (p.x + PIPE_WIDTH < 0)) ∧
      g1.items = (g.items.map (advance g.bird.x)).drop k ++
        (if g.frames % PIPE_SPAWN_RATE = 0 then [advance g.bird.x (newPipe g random)] else []) ∧
      (g.items.map (advance g.bird.x)).drop k <:+ g.items.map (advance g.bird.x) ∧
      g1.items.length ≤ g.items.length + 1 ∧
      (g.items.length ≤ g1.items.length ∨ 0 < k) := by
  have hitems := afterPipes_items g random
  have hk : (g.items.map (advance g.bird.x)).countP offscreen ≤ g.items.length :=
    le_trans (List.countP_le_length _) (le_of_eq (List.length_map _ _))
  have hk2 : (g.items.map (advance g.bird.x)).countP offscreen =
      ((pipes_spawn g random).items.map (advance g.bird.x)).countP
        (fun p => decide (p.x + PIPE_WIDTH < 0)) := by
    rw [pipes_spawn_items, List.map_append, List.countP_append]
    split_ifs
    · rw [List.map_singleton, List.countP_singleton]
      have := not_offscreen_newPipe g random g.bird.x
      simp only [offscreen] at this
      simp only [this, Bool.false_eq_true, if_false, add_zero]
      rfl
    · simp only [List.map_nil, List.countP_nil, add_zero]
      rfl
  refine ⟨afterPipes g random, (g.items.map (advance g.bird.x)).countP offscreen,
    pipes_update_eq_afterPipes g random, hk, hk2, hitems, List.drop_suffix _ _, ?_, ?_⟩
  · rw [hitems]
    simp only [List.length_append, List.length_drop, List.length_map]
    split_ifs <;> simp only [List.length_singleton, List.length_nil] <;> omega
  · rw [hitems]
    simp only [List.length_append, List.length_drop, List.length_map]
    omega

/-- C15. Gravity integration.  One tick in `PLAYING` returns and sets the
velocity to exactly the velocity before plus `GRAVITY = 0.25`; it sets `y` to
exactly `y` before plus the new velocity, unless that position reaches the
floor, in which case `y` is `canvas.height - radius`.  After a flap the
velocity is `FLAP_FORCE = -4.5`, and the next tick makes it -4.25. -/
theorem C15_gravity_integration (g : Game) (inp : TickInput)
    (hplay : g.currentState = GameState.PLAYING) :
    GRAVITY = 1 / 4 ∧ FLAP_FORCE = -9 / 2 ∧
      (∃ g1, loop g inp = Except.ok g1 ∧
        g1.bird.velocity = g.bird.velocity + GRAVITY ∧
        g1.bird.y =
          (if g.bird.y + g1.bird.velocity + g.bird.radius ≥ (g.canvasHeight : ℚ)
           then (g.canvasHeight : ℚ) - g.bird.radius
           else g.bird.y + g1.bird.velocity)) ∧
      (flap g).bird.velocity = FLAP_FORCE ∧
      ∃ g2, loop (flap g) inp = Except.ok g2 ∧ g2.bird.velocity = -17 / 4 := by
  refine ⟨rfl, rfl, ⟨_, loop_playing g inp hplay, ?_, ?_⟩, ?_, ?_⟩
  · rw [afterTick_bird, bird_update_velocity]; rfl
  · rw [afterTick_bird, bird_update_velocity, bird_update_y]; rfl
  · rw [flap_playing g hplay]; rfl
  · have hp : (flap g).currentState = GameState.PLAYING := by
      rw [flap_playing g hplay]; exact hplay
    refine ⟨_, loop_playing (flap g) inp hp, ?_⟩
    rw [afterTick_bird, bird_update_velocity, flap_playing g hplay]
    show FLAP_FORCE + GRAVITY = _
    norm_num [FLAP_FORCE, GRAVITY]

/-- C15 (witness): the first tick after the flap that starts a session. -/
theorem C15_gravity_integration_witness :
    (startGame (initial 800 600 0)).currentState = GameState.PLAYING ∧
      ∃ g1, loop (startGame (initial 800 600 0)) ⟨0, 0⟩ = Except.ok g1 ∧
        g1.bird.velocity = -17 / 4 := by
  obtain ⟨_, _, ⟨g1, h1, h2, _⟩, _, _⟩ :=
    C15_gravity_integration (startGame (initial 800 600 0)) ⟨0, 0⟩ (by decide)
  exact ⟨by decide, g1, h1, h2.trans (by decide!)⟩

/-- C16. Advance exactly once.  Let `n` be the length of the list after the
spawn step.  The loop of `pipes.update` makes exactly `n` iterations (it
returns with `n` iterations and not with fewer), and the list after the call
is the list after the spawn step with `k` pairs dropped from the front and
the horizontal position of every remaining pair decreased by exactly
`PIPE_SPEED = 2.5`, gap tops unchanged.  A pair spawned in the call is the
last element and ends at `canvas.width - 2.5`. -/
theorem C16_advance_exactly_once (g : Game) (random : ℚ) :
    ∃ g1 k, pipes_update g random = Except.ok g1 ∧
      (∀ fuel : ℕ, pipes_for fuel (pipes_spawn g random) 0 =
        if (pipes_spawn g random).items.length ≤ fuel then Except.ok g1
        else Except.error Fault.outOfFuel) ∧
      g1.items.length + k = (pipes_spawn g random).items.length ∧
      g1.items.map (fun p => (p.x, p.y)) =
        ((pipes_spawn g random).items.map (fun p => (p.x - PIPE_SPEED, p.y))).drop k ∧
      PIPE_SPEED = 5 / 2 ∧
      (g.frames % PIPE_SPAWN_RATE = 0 →
        ∃ q, g1.items.getLast? = some q ∧ q.x = (g.canvasWidth : ℚ) - 5 / 2) := by
  have hb := pipes_spawn_bird g random
  refine ⟨afterPipes g random,
    ((pipes_spawn g random).items.map (advance g.bird.x)).countP offscreen,
    pipes_update_eq_afterPipes g random, ?_, ?_, ?_, rfl, ?_⟩
  · intro fuel
    rw [pipes_for_fuel, hb]
    rfl
  · show (List.drop _ _).length + _ = _
    rw [List.length_drop, List.length_map]
    have := List.countP_le_length offscreen (l := (pipes_spawn g random).items.map (advance g.bird.x))
    rw [List.length_map] at this
    omega
  · show (List.drop _ _).map _ = _
    rw [List.map_drop, List.map_map]
    rfl
  · intro hframes
    refine ⟨advance g.bird.x (newPipe g random), ?_, ?_⟩
    · rw [afterPipes_items, if_pos hframes, List.getLast?_append, List.getLast?_singleton]
      rfl
    · simp only [advance, newPipe, PIPE_SPEED]

/-- C16 (witness): the first tick of a session on an 800 x 600 canvas spawns a
pair, which ends the call at `x = 797.5`. -/
theorem C16_advance_exactly_once_witness :
    (startGame (initial 800 600 0)).frames % PIPE_SPAWN_RATE = 0 ∧
      ∃ g1, pipes_update (startGame (initial 800 600 0)) 0 = Except.ok g1 ∧
        ∃ q, g1.items.getLast? = some q ∧ q.x = 1595 / 2 := by
  obtain ⟨g1, k, h1, _, _, _, _, h6⟩ :=
    C16_advance_exactly_once (startGame (initial 800 600 0)) 0
  obtain ⟨q, hq1, hq2⟩ := h6 (by decide)
  exact ⟨by decide, g1, h1, q, hq1, hq2.trans (by decide!)⟩

/-- C17. Flap handling by state.  In `START` a flap gives the same state with
lifecycle state `PLAYING`, velocity `FLAP_FORCE = -4.5` and rotation
`-25 * Math.PI / 180` (score, frames and pipe list as before); in `PLAYING` it
sets velocity and rotation to those constants and changes nothing else; and
two flaps in a row leave the same state as one. -/
theorem C17_flap_by_state (g : Game) :
    (g.currentState = GameState.START →
        flap g = { g with
          currentState := GameState.PLAYING
          bird := { g.bird with velocity := FLAP_FORCE, rotation := -25 * MATH_PI / 180 } }) ∧
      (g.currentState = GameState.PLAYING →
        flap g = { g with
          bird := { g.bird with velocity := FLAP_FORCE, rotation := -25 * MATH_PI / 180 } }) ∧
      flap (flap g) = flap g ∧ FLAP_FORCE = -9 / 2 := by
  refine ⟨?_, ?_, ?_, rfl⟩
  · intro h; simp [flap, h, startGame, bird_flap]
  · intro h; simp [flap, h, bird_flap]
  · cases h : g.currentState with
    | START => simp [flap, h, startGame, bird_flap]
    | PLAYING => simp [flap, h, bird_flap]
    | GAMEOVER => simp [flap, h]

/-- C17 (witness): the flap that starts the first session, and a second flap. -/
theorem C17_flap_by_state_witness :
    (initial 800 600 0).currentState = GameState.START ∧
      (flap (initial 800 600 0)).currentState = GameState.PLAYING ∧
      flap (initial 800 600 0) = { initial 800 600 0 with
          currentState := GameState.PLAYING
          bird := { (initial 800 600 0).bird with
            velocity := FLAP_FORCE, rotation := -25 * MATH_PI / 180 } } ∧
      flap (flap (initial 800 600 0)) = { flap (initial 800 600 0) with
          bird := { (flap (initial 800 600 0)).bird with
            velocity := FLAP_FORCE, rotation := -25 * MATH_PI / 180 } } :=
  ⟨rfl, rfl, (C17_flap_by_state (initial 800 600 0)).1 rfl,
    (C17_flap_by_state (flap (initial 800 600 0))).2.1 rfl⟩

/-- C18. The pruning loop terminates.  For every pipe list, the `for` loop of
`pipes.update` started at index 0 produces a state exactly when it is given
at least as many iterations as the list has elements at the start; with fewer
it is still running when the budget ends.  It never reads `this.items[i]`
outside the array (no run ends in `badIndex`).  In particular `pipes.update`,
whose loop starts on the list left by the spawn step, returns. -/
theorem C18_loop_terminates (g : Game) (random : ℚ) :
    (∃ g1, ∀ fuel : ℕ, pipes_for fuel g 0 =
      if g.items.length ≤ fuel then Except.ok g1 else Except.error Fault.outOfFuel) ∧
      ∃ g2, pipes_update g random = Except.ok g2 :=
  ⟨⟨_, fun fuel => pipes_for_fuel g fuel⟩, _, pipes_update_eq_afterPipes g random⟩

/-- C19. The function `gameOver` is idempotent: calling it twice in a row
gives exactly the state of calling it once; one call leaves the state
`GAMEOVER`, keeps the score and makes the best score `max highScore score`. -/
theorem C19_gameOver_idempotent (g : Game) :
    gameOver (gameOver g) = gameOver g ∧
      (gameOver g).currentState = GameState.GAMEOVER ∧
      (gameOver g).score = g.score ∧
      (gameOver g).highScore = max g.highScore g.score := by
  refine ⟨?_, ?_, ?_, ?_⟩
  · rw [gameOver_eq (gameOver g), gameOver_eq g]
    simp
  · rw [gameOver_eq]
  · rw [gameOver_eq]
  · rw [gameOver_eq]

/-- C20. The best score is never lost.  For every state and every event
(tick, flap, start, restart, resize), `highScore` after the event is at least
`highScore` before it.  It differs only after a tick taken in `PLAYING` that
ends in `GAMEOVER`, that is, only when `gameOver` has run; and `gameOver`
writes it only when `score > highScore`, to the value `score`. -/
theorem C20_best_score_never_lost (g g1 : Game) (e : Event)
    (hstep : step g e = Except.ok g1) :
    g.highScore ≤ g1.highScore ∧
      (g1.highScore ≠ g.highScore →
        g.highScore < g1.highScore ∧ g.currentState = GameState.PLAYING ∧
          g1.currentState = GameState.GAMEOVER ∧ ∃ inp, e = Event.tick inp) ∧
      (gameOver g).highScore = (if g.score > g.highScore then g.score else g.highScore) := by
  have hgo : (gameOver g).highScore = (if g.score > g.highScore then g.score else g.highScore) := by
    simp only [gameOver]; split_ifs <;> rfl
  have hsame : g1.highScore = g.highScore →
      g.highScore ≤ g1.highScore ∧
      (g1.highScore ≠ g.highScore →
        g.highScore < g1.highScore ∧ g.currentState = GameState.PLAYING ∧
          g1.currentState = GameState.GAMEOVER ∧ ∃ inp, e = Event.tick inp) ∧
      (gameOver g).highScore = (if g.score > g.highScore then g.score else g.highScore) :=
    fun h => ⟨le_of_eq h.symm, fun hne => absurd h hne, hgo⟩
  cases e with
  | tick inp =>
    simp only [step] at hstep
    rcases loop_eq_cases g inp with ⟨hp, hl⟩ | ⟨_, g2, hl, _, _, _, _, hh, _⟩
    · rw [hl] at hstep; cases hstep
      have hge := afterTick_highScore_ge g inp.random
      refine ⟨hge, fun hne => ⟨lt_of_le_of_ne hge (Ne.symm hne), hp, ?_, inp, rfl⟩, hgo⟩
      by_contra hc
      exact hne (afterTick_highScore_of_not_gameover g inp.random hc)
    · rw [hl] at hstep; cases hstep
      exact hsame hh
  | flap =>
    simp only [step] at hstep; cases hstep
    refine hsame ?_
    simp only [flap, startGame, bird_flap]; split_ifs <;> rfl
  | startRequested =>
    simp only [step] at hstep; cases hstep
    exact hsame rfl
  | restartRequested =>
    simp only [step] at hstep; cases hstep
    exact hsame rfl
  | resize w1 h1 =>
    simp only [step] at hstep; cases hstep
    exact hsame rfl

/-- C20 (witness): the tick that ends the run of `c11_state` at the floor of a
canvas of height 100 raises the best score from 3 to 7. -/
theorem C20_best_score_never_lost_witness :
    step (resize c11_state 800 100) (Event.tick ⟨0, 0⟩)
        = Except.ok (afterTick (resize c11_state 800 100) 0) ∧
      (resize c11_state 800 100).highScore = 3 ∧
      (afterTick (resize c11_state 800 100) 0).highScore = 7 ∧
      (resize c11_state 800 100).highScore ≤ (afterTick (resize c11_state 800 100) 0).highScore ∧
      (afterTick (resize c11_state 800 100) 0).currentState = GameState.GAMEOVER := by
  have h := C20_best_score_never_lost (resize c11_state 800 100)
    (afterTick (resize c11_state 800 100) 0) (Event.tick ⟨0, 0⟩) (by decide!)
  exact ⟨by decide!, by decide!, by decide!, h.1, (h.2.1 (by decide!)).2.2.1⟩

end ZaidiBird
